import Mathlib

/-! # MGARD-GPU test executable (`src/cuda/Executable.cpp`)

A shallow embedding of the command-line harness: `min_max`, `readfile`,
`compression`, `decompression`, `test` and `main`, followed by theorems about
them.

Conventions of the embedding

* Floating-point values are `Flt`: a finite value is carried exactly as a
  rational, next to `+inf`, `-inf` and `NaN`.  Comparisons follow IEEE-754
  (every comparison with `NaN` is false).  The result of `*` and `/` on finite
  values is the exact result rounded to the type `T` of the operation by the
  rounding `Env.round T` of the platform, a parameter (it may yield an
  infinity on overflow); passing a `double` to a parameter of type `T` rounds
  it in the same way (`narrow`).  Exact arithmetic is the rounding `Flt.fin`.
  Zero is unsigned (it behaves as `+0`).
* Output (`printf`, `fprintf`, `fputs`) and calls into the MGARD library are
  recorded, in program order, in a log of `Event`s.
* A function yields an `Outcome`: it returns, it terminates the process through
  `exit(code)`, or it runs into behaviour the C++ standard leaves undefined.
* `size_t` is 64 bits wide, `int` and `mgard_cuda::SIZE` (printed with `%u`)
  are 32 bits wide.
* The MGARD library (`mgard_api.h`) and the C library (`rand`, `atoi`, `atof`,
  the file system) are not part of the file; they are parameters (`Backend`,
  `Env`).  Their calls are assumed to return, and `malloc` to succeed.
-/

set_option linter.unusedVariables false

namespace MGARD

/-! ## Floating-point values -/

/-- IEEE-754 value with the finite values carried as exact rationals. -/
inductive Flt where
  | fin (q : ℚ)
  | pinf
  | ninf
  | nan
  deriving DecidableEq

namespace Flt

/-- The C++ operator `<` on floating-point values. -/
def lt : Flt → Flt → Bool
  | nan, _ => false
  | _, nan => false
  | fin a, fin b => decide (a < b)
  | fin _, pinf => true
  | fin _, ninf => false
  | pinf, _ => false
  | ninf, ninf => false
  | ninf, _ => true

/-- The C++ operator `>` on floating-point values. -/
def gt (a b : Flt) : Bool := lt b a

/-- The C++ operator `==` on floating-point values (`NaN` equals nothing). -/
def feq : Flt → Flt → Bool
  | fin a, fin b => decide (a = b)
  | pinf, pinf => true
  | ninf, ninf => true
  | _, _ => false

/-- Sign of a value as seen by `*` and `/`: `none` for `NaN`, else -1, 0 or 1. -/
def sgn : Flt → Option Int
  | fin q => some (if q < 0 then -1 else if q = 0 then 0 else 1)
  | pinf => some 1
  | ninf => some (-1)
  | nan => none

/-- Infinity of the given sign; sign 0 yields `NaN` (as in `inf * 0`). -/
def infOfSign (k : Int) : Flt :=
  if k < 0 then ninf else if k = 0 then nan else pinf

/-- The C++ operator `*` on floating-point values of a type whose rounding is
`rnd`: on finite operands the exact product, rounded. -/
def mul (rnd : ℚ → Flt) : Flt → Flt → Flt
  | fin a, fin b => rnd (a * b)
  | x, y =>
    match sgn x, sgn y with
    | some k, some l => infOfSign (k * l)
    | _, _ => nan

/-- The C++ operator `/` on floating-point values of a type whose rounding is
`rnd`: on finite operands with a nonzero divisor the exact quotient, rounded;
a zero divisor behaves as `+0`. -/
def div (rnd : ℚ → Flt) : Flt → Flt → Flt
  | nan, _ => nan
  | _, nan => nan
  | fin a, fin b =>
    if b = 0 then infOfSign (if a < 0 then -1 else if a = 0 then 0 else 1) else rnd (a / b)
  | fin _, pinf => fin 0
  | fin _, ninf => fin 0
  | pinf, fin b => if b < 0 then ninf else pinf
  | ninf, fin b => if b < 0 then pinf else ninf
  | pinf, _ => nan
  | ninf, _ => nan

/-- Conversion of an `int` to a floating-point value. -/
def ofInt (v : Int) : Flt := fin (v : ℚ)

end Flt

/-! ## Enumerations, configuration, outcomes and the output log -/

/-- The `enum device` with members CPU and GPU. -/
inductive device where
  | CPU
  | GPU
  deriving DecidableEq

/-- The `enum data_type` with members SINGLE and DOUBLE; also stands for the template parameter
`T` (`float` for `SINGLE`, `double` for `DOUBLE`). -/
inductive data_type where
  | SINGLE
  | DOUBLE
  deriving DecidableEq

/-- The `enum mgard_cuda::error_bound_type`, with the two values the file uses. -/
inductive error_bound_type where
  | REL
  | ABS
  deriving DecidableEq

/-- The `sizeof(T)` of the two instantiations of `T`. -/
def sizeofT : data_type → Nat
  | .SINGLE => 4
  | .DOUBLE => 8

/-- The largest value of a C `int`. -/
def INT_MAX : Nat := 2147483647

/-- The fields of `mgard_cuda::Config` that `test` sets. -/
structure Config where
  gpu_lossless : Bool
  huff_dict_size : Nat
  huff_block_size : Nat
  enable_lz4 : Bool
  lz4_block_size : Nat
  reduce_memory_footprint : Bool
  sync_and_check_all_kernels : Bool
  timing : Bool
  deriving DecidableEq

/-- Metric selected by the comparison `s == infinity`. -/
inductive Metric where
  | Linf
  | L2
  deriving DecidableEq

/-- Kinds of undefined behaviour the program can run into. -/
inductive UB where
  | signedOverflow
  | outOfBounds
  | nullArgument
  | uninitialisedRead
  | divisionByZero
  deriving DecidableEq

/-- Result of running a function of the program. -/
inductive Outcome (α : Type) where
  | ret (a : α)
  | exit (code : Int)
  | undefined (why : UB)
  deriving DecidableEq

/-- Observable steps of a run: lines written to `stdout` or `stderr` and calls
into the MGARD library. -/
inductive Event where
  /-- Line `fprintf(fp, "Usage: ...", argv[0])` of `print_usage_message`. -/
  | usage (argv0 : String)
  /-- Line `printf("Min: %f, Max: %f\n", min, max)`. -/
  | min_max (min max : Flt)
  /-- The lines of `print_config`. -/
  | config (input_file : String) (dtype : data_type) (shape : List Nat) (dev : device)
      (tol s : Flt) (mode : error_bound_type)
  /-- Line `fprintf(stdout, "Loading file: %s\n", input_file)`. -/
  | loading (input_file : String)
  /-- Line `fputs("File error", stderr)`. -/
  | file_error
  /-- Line `fprintf(stderr, "%s contains %lu bytes when %lu were expected. Exiting.\n", ...)`. -/
  | size_mismatch (input_file : String) (lSize num_bytes : Nat)
  /-- Line `fputs("Reading error", stderr)`. -/
  | reading_error
  /-- Call of `mgard_cuda::L_inf_norm` or `mgard_cuda::L_2_norm`, with its result. -/
  | norm (m : Metric) (value : Flt)
  /-- Call `mgard::compress(hierarchy, original_data, s, tol)` of `compression<D, T>`. -/
  | cpu_compress (D : Nat) (shape : List Nat) (s tol : Flt)
  /-- Call `mgard_cuda::compress(handle, in_array, mode, tol, s)` of `compression<D, T>`. -/
  | gpu_compress (D : Nat) (shape : List Nat) (mode : error_bound_type) (tol s : Flt)
  /-- Construction `compressed_dataset(hierarchy, s, tol, ...)` and call of
  `mgard::decompress` in `decompression<D, T>`. -/
  | cpu_decompress (D : Nat) (shape : List Nat) (s tol : Flt)
  /-- Call `mgard_cuda::decompress(handle, compressed_array)` of `decompression<D, T>`. -/
  | gpu_decompress (D : Nat) (shape : List Nat)
  /-- Line `printf("In size: ... Out size: ... Compression ratio: ...")`. -/
  | sizes (in_size out_size quotient : Nat)
  /-- The `Rel.`/`Abs.` `L^infty`/`L^2` error line, with the printed value. -/
  | error (mode : error_bound_type) (m : Metric) (value : Flt)
  /-- Banner `SUCCESS: Error tolerance met!`. -/
  | success
  /-- Banner `FAILURE: Error tolerance NOT met!`. -/
  | failure
  deriving DecidableEq

/-- A run: what was written and called, and how the function ended. -/
structure Run (α : Type) where
  log : List Event
  out : Outcome α
  deriving DecidableEq

/-- The platform and the C library as the program sees them. -/
structure Env where
  /-- Rounding of an exact value to the floating-point type `T` (`float` for
  `SINGLE`, `double` for `DOUBLE`): the finite value of `T` chosen by the
  rounding mode, or an infinity on overflow. -/
  round : data_type → ℚ → Flt
  /-- The `k`-th value (from 0) returned by `rand()` after `srand(7117)`. -/
  rand : Nat → Int
  /-- Result of `fopen(name, "rb")`: `none` when it returns `NULL`, else the bytes of the file. -/
  fs : String → Option (List Nat)
  /-- Reinterpretation of the bytes read into a buffer of `T` as its elements. -/
  decode : data_type → List Nat → List Flt
  /-- The function `atoi`. -/
  atoi : String → Int
  /-- The function `atof`. -/
  atof : String → Flt

/-- The MGARD library (`mgard_api.h`) as the program calls it.  The first
argument of the compress and decompress functions is the template parameter `D`. -/
structure Backend where
  L_inf_norm : Nat → List Flt → Flt
  L_2_norm : Nat → List Flt → Flt
  L_inf_error : Nat → List Flt → List Flt → Flt
  L_2_error : Nat → List Flt → List Flt → Flt
  /-- Call `mgard::compress(hierarchy(shape), original_data, s, tol)`. -/
  cpu_compress : Nat → List Nat → List Flt → Flt → Flt → List Nat
  /-- Call `mgard::decompress(CompressedDataset(hierarchy(shape), s, tol, data, size))`. -/
  cpu_decompress : Nat → List Nat → Flt → Flt → List Nat → List Flt
  /-- Call `mgard_cuda::compress(Handle(shape, config), in_array, mode, tol, s)`. -/
  gpu_compress : Nat → List Nat → Config → List Flt → error_bound_type → Flt → Flt → List Nat
  /-- Call `mgard_cuda::decompress(Handle(shape, config), compressed_array)`. -/
  gpu_decompress : Nat → List Nat → Config → List Nat → List Flt

/-- Conversion of a `double` argument to a parameter of type `T` (the calls
`compression<D, T>(shape, dev, tol, s, ...)` of `test`): the identity for
`double`, the rounding to `float` of a finite value otherwise. -/
def narrow (E : Env) : data_type → Flt → Flt
  | data_type.DOUBLE, x => x
  | data_type.SINGLE, Flt.fin q => E.round data_type.SINGLE q
  | data_type.SINGLE, x => x

/-! ## `print_usage_message`, `min_max`, `readfile` -/

/-- Function `print_usage_message`: writes the usage line and calls `exit(0)`. -/
def print_usage_message {α : Type} (argv : List String) : Run α :=
  ⟨[Event.usage (argv.headD "")], Outcome.exit 0⟩

/-- One iteration of the loop of `min_max` on the pair `(min, max)`. -/
def min_max_step (acc : Flt × Flt) (x : Flt) : Flt × Flt :=
  (if Flt.gt acc.1 x then x else acc.1, if Flt.lt acc.2 x then x else acc.2)

/-- Function `min_max`: the pair `(min, max)` it prints, for the `n` first elements of
`in_buff`; `min` starts at `+infinity` and `max` at `0`. -/
def min_max (n : Nat) (in_buff : List Flt) : Flt × Flt :=
  (in_buff.take n).foldl min_max_step (Flt.pinf, Flt.fin 0)

/-- The loop `for (int i = 0; i < num_bytes/sizeof(T); i++) in_buff[i] = rand() % 100 + 1`
at counter value `i`, with `k` iterations left (`k` is the bound minus `i`, so
`i < num_bytes/sizeof(T)` holds exactly when `k` is not 0) and `buf` holding the
elements written so far.  The counter is an `int`: the increment `i++` at
`INT_MAX` is a signed overflow.  The operator `%` of C truncates towards zero. -/
def fill_random (rand : Nat → Int) : Nat → Nat → List Flt → Outcome (List Flt)
  | 0, _, buf => Outcome.ret buf
  | k + 1, i, buf =>
    if i = INT_MAX then Outcome.undefined UB.signedOverflow
    else fill_random rand k (i + 1) (buf ++ [Flt.ofInt (Int.tmod (rand i) 100 + 1)])

/-- Function `readfile<T>(input_file, num_bytes, check_size, in_buff)`: the contents of
`in_buff` afterwards. -/
def readfile (E : Env) (T : data_type) (input_file : String) (num_bytes : Nat)
    (check_size : Bool) : Run (List Flt) :=
  if input_file = "random" then
    match fill_random E.rand (num_bytes / sizeofT T) 0 [] with
    | Outcome.ret in_buff =>
      let mm := min_max (num_bytes / sizeofT T) in_buff
      ⟨[Event.min_max mm.1 mm.2], Outcome.ret in_buff⟩
    | Outcome.exit c => ⟨[], Outcome.exit c⟩
    | Outcome.undefined u => ⟨[], Outcome.undefined u⟩
  else
    match E.fs input_file with
    | none => ⟨[Event.loading input_file, Event.file_error], Outcome.exit 1⟩
    | some bytes =>
      let lSize := bytes.length
      if check_size && decide (lSize ≠ num_bytes) then
        ⟨[Event.loading input_file, Event.size_mismatch input_file lSize num_bytes],
          Outcome.exit 1⟩
      else
        let result := (bytes.take num_bytes).length
        if result ≠ num_bytes then
          ⟨[Event.loading input_file, Event.reading_error], Outcome.exit 3⟩
        else
          let in_buff := E.decode T (bytes.take num_bytes)
          let mm := min_max (num_bytes / sizeofT T) in_buff
          ⟨[Event.loading input_file, Event.min_max mm.1 mm.2], Outcome.ret in_buff⟩


/-! ## Sequencing of runs -/

/-- Sequential composition: the second part runs only when the first returned. -/
def Run.bind {α β : Type} (r : Run α) (f : α → Run β) : Run β :=
  match r.out with
  | Outcome.ret a => ⟨r.log ++ (f a).log, (f a).out⟩
  | Outcome.exit c => ⟨r.log, Outcome.exit c⟩
  | Outcome.undefined u => ⟨r.log, Outcome.undefined u⟩

instance : Monad Run where
  pure a := ⟨[], Outcome.ret a⟩
  bind := Run.bind

/-- Record one event and go on. -/
def emit (e : Event) : Run Unit := ⟨[e], Outcome.ret ()⟩

/-- Stop in undefined behaviour. -/
def ub {α : Type} (u : UB) : Run α := ⟨[], Outcome.undefined u⟩

/-! ## `compression`, `decompression`, `test` -/

/-- The loop `size_t original_size = 1; for (int i = 0; i < D; i++) original_size *= shape[i]`;
`none` when `shape[i]` is read past the end of the vector. -/
def size_of_shape (shape : List Nat) (D : Int) : Option Nat :=
  (List.range D.toNat).foldl
    (fun acc i =>
      match acc, shape.get? i with
      | some a, some x => some (a * x % 2 ^ 64)
      | _, _ => none)
    (some 1)

/-- Function `compression<D, T>`: the log of the library call and the bytes of
`compressed_data` (`compressed_size` is their number); `rnd` is the rounding of
`T`.  Line 109 copies `shape` into `std::array<std::size_t, D>` for both
devices: a longer `shape` is written past the end of the array.  Only the CPU
branch reads the array (line 112), whose elements beyond `shape.size()` are
uninitialised. -/
def compression (rnd : ℚ → Flt) (B : Backend) (D : Nat) (shape : List Nat) (dev : device)
    (tol s : Flt) (mode : error_bound_type) (norm : Flt) (original_data : List Flt)
    (config : Config) : Run (List Nat) :=
  if D < shape.length then ub UB.outOfBounds
  else
    match dev with
    | device.CPU =>
      let tol := if mode = error_bound_type.REL then Flt.mul rnd tol norm else tol
      if shape.length < D then ub UB.uninitialisedRead
      else
        ⟨[Event.cpu_compress D shape s tol],
          Outcome.ret (B.cpu_compress D shape original_data s tol)⟩
    | device.GPU =>
      ⟨[Event.gpu_compress D shape mode tol s],
        Outcome.ret (B.gpu_compress D shape config original_data mode tol s)⟩

/-- Function `decompression<D, T>`: the log of the library call and the contents
of `decompressed_data`; `rnd` is the rounding of `T`.  The loop of line 149
reads `shape[i]` for `i < D`; only the CPU branch copies `shape` into
`std::array<std::size_t, D>` (line 154). -/
def decompression (rnd : ℚ → Flt) (B : Backend) (D : Nat) (shape : List Nat) (dev : device)
    (tol s : Flt) (mode : error_bound_type) (norm : Flt) (compressed_data : List Nat)
    (config : Config) : Run (List Flt) :=
  match size_of_shape shape D with
  | none => ub UB.outOfBounds
  | some _ =>
    match dev with
    | device.CPU =>
      let tol := if mode = error_bound_type.REL then Flt.mul rnd tol norm else tol
      if D < shape.length then ub UB.outOfBounds
      else
        ⟨[Event.cpu_decompress D shape s tol],
          Outcome.ret (B.cpu_decompress D shape s tol compressed_data)⟩
    | device.GPU =>
      ⟨[Event.gpu_decompress D shape],
        Outcome.ret (B.gpu_decompress D shape config compressed_data)⟩

/-- The configuration `test` builds (lines 196-204). -/
def test_config : Config :=
  ⟨true, 8192, 1024 * 30, false, 2 ^ 15, true, true, true⟩

/-- One of the five statements `if (D == k) { compression<k, T>(...); decompression<k, T>(...); }`
of `test`.  The state is the content of `compressed_data` (with
`compressed_size`) and `decompressed_data`, `none` while they are uninitialised. -/
def test_branch (rnd : ℚ → Flt) (B : Backend) (k : Nat) (D : Int) (shape : List Nat)
    (dev : device)
    (tol s : Flt) (mode : error_bound_type) (norm : Flt) (original_data : List Flt)
    (config : Config) (vars : Option (List Nat × List Flt)) :
    Run (Option (List Nat × List Flt)) :=
  if D = (k : Int) then do
    let compressed_data ← compression rnd B k shape dev tol s mode norm original_data config
    let decompressed_data ←
      decompression rnd B k shape dev tol s mode norm compressed_data config
    pure (some (compressed_data, decompressed_data))
  else pure vars

/-- Lines 206-238 of `test`: the three variables are declared uninitialised,
then the five `if (D == k)` statements run one after the other; `tol` and `s`
are the arguments as converted to `T`, whose rounding is `rnd`. -/
def test_dispatch (rnd : ℚ → Flt) (B : Backend) (D : Int) (shape : List Nat) (dev : device)
    (tol s : Flt) (mode : error_bound_type) (norm : Flt) (original_data : List Flt)
    (config : Config) : Run (Option (List Nat × List Flt)) := do
  let vars ← test_branch rnd B 1 D shape dev tol s mode norm original_data config none
  let vars ← test_branch rnd B 2 D shape dev tol s mode norm original_data config vars
  let vars ← test_branch rnd B 3 D shape dev tol s mode norm original_data config vars
  let vars ← test_branch rnd B 4 D shape dev tol s mode norm original_data config vars
  test_branch rnd B 5 D shape dev tol s mode norm original_data config vars

/-- Function `test<T>`: its log and its return value.  The `double` values `tol`
and `s` are converted to `T` where they are passed to `compression<D, T>` and
`decompression<D, T>`; the tests `s == infinity` and `error < tol` read the
`double` values themselves, and `error /= norm` is a division in `T`. -/
def test (E : Env) (B : Backend) (T : data_type) (D : Int) (input_file : String)
    (dtype : data_type) (shape : List Nat) (dev : device) (tol s : Flt)
    (mode : error_bound_type) : Run Int :=
  match size_of_shape shape D with
  | none => ub UB.outOfBounds
  | some original_size => do
    let original_data ← readfile E T input_file (original_size * sizeofT T % 2 ^ 64) false
    let metric := if Flt.feq s Flt.pinf then Metric.Linf else Metric.L2
    let norm :=
      if Flt.feq s Flt.pinf then B.L_inf_norm original_size original_data
      else B.L_2_norm original_size original_data
    emit (Event.norm metric norm)
    let config := test_config
    let vars ← test_dispatch (E.round T) B D shape dev (narrow E T tol) (narrow E T s) mode
      norm original_data config
    match vars with
    | none => ub UB.uninitialisedRead
    | some (compressed_data, decompressed_data) =>
      let compressed_size := compressed_data.length
      if compressed_size = 0 then ub UB.divisionByZero
      else do
        emit (Event.sizes (original_size * sizeofT T % 2 ^ 64) compressed_size
          (original_size * sizeofT T % 2 ^ 64 / compressed_size))
        let error :=
          if Flt.feq s Flt.pinf then
            let error := B.L_inf_error original_size original_data decompressed_data
            if mode = error_bound_type.REL then Flt.div (E.round T) error norm else error
          else
            let error := B.L_2_error original_size original_data decompressed_data
            if mode = error_bound_type.REL then Flt.div (E.round T) error norm else error
        emit (Event.error mode (if Flt.feq s Flt.pinf then Metric.Linf else Metric.L2) error)
        if Flt.lt error tol then do
          emit Event.success
          pure 0
        else do
          emit Event.failure
          pure (-1)

/-! ## `print_config`, `main` -/

/-- Function `print_config`: the lines it prints. -/
def print_config (input_file : String) (dtype : data_type) (shape : List Nat) (dev : device)
    (tol s : Flt) (mode : error_bound_type) : Run Unit :=
  emit (Event.config input_file dtype shape dev tol s mode)

/-- The comparison `d < D` of a counter of type `mgard_cuda::DIM` (an unsigned
type of `dimBits` bits, declared in the library) with the `int` `D`: a type
narrower than `int` is promoted to `int`, otherwise `D` is converted to the
unsigned type. -/
def dim_lt (dimBits : Nat) (d : Nat) (D : Int) : Bool :=
  if dimBits < 32 then decide ((d : Int) < D) else decide ((d : Int) < D % 2 ^ dimBits)

/-- Conversion of an `int` to `mgard_cuda::SIZE` (`unsigned int`). -/
def to_SIZE (v : Int) : Nat := (v % 2 ^ 32).toNat

/-- The loop `for (mgard_cuda::DIM d = 0; d < D; d++) shape.push_back(atoi(argv[i++]))`
from counter value `d` on, the first argument being the part of `argv` from
index `i` on.  Yields the shape and the rest of `argv`, `none` when `argv` is
exhausted (`atoi` of a null pointer). -/
def parse_shape (dimBits : Nat) (atoi : String → Int) (D : Int) :
    List String → Nat → List Nat → Option (List Nat × List String)
  | [], d, shape => if dim_lt dimBits d D then none else some (shape, [])
  | a :: rest, d, shape =>
    if dim_lt dimBits d D then
      parse_shape dimBits atoi D rest ((d + 1) % 2 ^ dimBits) (shape ++ [to_SIZE (atoi a)])
    else some (shape, a :: rest)

/-- Function `main`: its log and the exit status of the process.  `argv` holds
the `argc` arguments; reading past them hands a null pointer to `strcmp`,
`atoi` or `atof`. -/
def main (E : Env) (B : Backend) (dimBits : Nat) (argv : List String) : Run Int :=
  if argv.length = 2 ∧ (argv.get? 1 = some "--help" ∨ argv.get? 1 = some "-h") then
    print_usage_message argv
  else
    match argv.drop 1 with
    | input_file :: dt :: rest =>
      match (if dt = "s" then some data_type.SINGLE
             else if dt = "d" then some data_type.DOUBLE else none) with
      | none => print_usage_message argv
      | some dtype =>
        match rest with
        | [] => ub UB.nullArgument
        | a :: rest =>
          let D := E.atoi a
          match parse_shape dimBits E.atoi D rest 0 [] with
          | none => ub UB.nullArgument
          | some (shape, rest) =>
            match rest with
            | [] => ub UB.nullArgument
            | em :: rest =>
              match (if em = "rel" then some error_bound_type.REL
                     else if em = "abs" then some error_bound_type.ABS else none) with
              | none => print_usage_message argv
              | some mode =>
                match rest with
                | t :: sa :: d :: _ =>
                  let tol := E.atof t
                  let s := E.atof sa
                  match (if d = "cpu" then some device.CPU
                         else if d = "gpu" then some device.GPU else none) with
                  | none => print_usage_message argv
                  | some dev => do
                    print_config input_file dtype shape dev tol s mode
                    match dtype with
                    | data_type.SINGLE =>
                      test E B data_type.SINGLE D input_file dtype shape dev tol s mode
                    | data_type.DOUBLE =>
                      test E B data_type.DOUBLE D input_file dtype shape dev tol s mode
                | _ => ub UB.nullArgument
    | _ => ub UB.nullArgument

/-! ## Concrete environments used to run the definitions -/

/-- A platform with exact arithmetic and a C library whose `rand` counts
upwards, with one four-byte file `four.dat` and one three-byte file
`three.dat`; an element decodes to its first byte minus 128. -/
def demoEnv : Env where
  round := fun _ q => Flt.fin q
  rand := fun k => 7 * (k : Int) + 3
  fs := fun name =>
    if name = "four.dat" then some [1, 2, 3, 4]
    else if name = "three.dat" then some [1, 2, 3] else none
  decode := fun T bytes =>
    (List.range (bytes.length / sizeofT T)).map fun i =>
      Flt.ofInt ((bytes.getD (i * sizeofT T) 0 : Int) - 128)
  atoi := fun a => if a = "1" then 1 else if a = "2" then 2 else if a = "6" then 6 else 0
  atof := fun a => if a = "1" then Flt.fin 1 else if a = "inf" then Flt.pinf else Flt.fin 0

/-- A library whose payload is a header of four bytes followed by one byte per
element (the numerator of the element), from which the elements are
reconstructed; it measures every norm as 2 and every error as 1. -/
def demoBackend : Backend where
  L_inf_norm := fun _ _ => Flt.fin 2
  L_2_norm := fun _ _ => Flt.fin 2
  L_inf_error := fun _ _ _ => Flt.fin 1
  L_2_error := fun _ _ _ => Flt.fin 1
  cpu_compress := fun _ _ data _ _ =>
    [0, 0, 0, 0] ++ data.map fun x =>
      match x with
      | Flt.fin q => q.num.toNat
      | _ => 0
  cpu_decompress := fun _ _ _ _ payload => (payload.drop 4).map fun b => Flt.ofInt (b : Int)
  gpu_compress := fun _ _ _ data _ _ _ =>
    [0, 0, 0, 0] ++ data.map fun x =>
      match x with
      | Flt.fin q => q.num.toNat
      | _ => 0
  gpu_decompress := fun _ _ _ payload => (payload.drop 4).map fun b => Flt.ofInt (b : Int)

/-- The platform `demoEnv` with one rounding of `float` made real: the
quotient 1/3 is rounded to the nearest `float`, 0x1.555556p-2, which is
11184811 / 33554432 (every other value is kept). -/
def thirdEnv : Env :=
  { demoEnv with
    round := fun T q =>
      if T = data_type.SINGLE ∧ q = 1 / 3 then Flt.fin (11184811 / 33554432) else Flt.fin q }

/-- The library `demoBackend` with every norm measured as 3. -/
def normThreeBackend : Backend :=
  { demoBackend with
    L_inf_norm := fun _ _ => Flt.fin 3
    L_2_norm := fun _ _ => Flt.fin 3 }

/-! ## Quantities named in the statements -/

/-- Metric chosen by the two tests `s == std::numeric_limits<T>::infinity()`. -/
def metric_of (s : Flt) : Metric :=
  if Flt.feq s Flt.pinf then Metric.Linf else Metric.L2

/-- Norm that `test` computes at lines 189-194. -/
def norm_of (B : Backend) (s : Flt) (n : Nat) (data : List Flt) : Flt :=
  if Flt.feq s Flt.pinf then B.L_inf_norm n data else B.L_2_norm n data

/-- Error between original and reconstruction before the division by the norm
(lines 253 and 257). -/
def raw_error (B : Backend) (s : Flt) (n : Nat) (original decompressed : List Flt) : Flt :=
  if Flt.feq s Flt.pinf then B.L_inf_error n original decompressed
  else B.L_2_error n original decompressed

/-- Value of `error` at the comparison of line 262, from the raw error `e`:
in relative mode the quotient `e / norm` in the type whose rounding is `rnd`. -/
def measured_error (rnd : ℚ → Flt) (mode : error_bound_type) (e norm : Flt) : Flt :=
  if mode = error_bound_type.REL then Flt.div rnd e norm else e

/-- The backend round trip of `test` for the template parameter `k`:
`compression<k, T>` followed by `decompression<k, T>`. -/
def round_trip (rnd : ℚ → Flt) (B : Backend) (k : Nat) (shape : List Nat) (dev : device)
    (tol s : Flt) (mode : error_bound_type) (norm : Flt) (original_data : List Flt)
    (config : Config) : Run (Option (List Nat × List Flt)) :=
  Run.bind (compression rnd B k shape dev tol s mode norm original_data config) fun c =>
    Run.bind (decompression rnd B k shape dev tol s mode norm c config) fun d =>
      ⟨[], Outcome.ret (some (c, d))⟩

/-- Lines 248-268 of `test`, run on the content `vars` of `compressed_data`
(with `compressed_size`) and `decompressed_data` after the dispatch. -/
def test_tail (rnd : ℚ → Flt) (B : Backend) (T : data_type) (tol s : Flt)
    (mode : error_bound_type) (n : Nat) (data : List Flt)
    (vars : Option (List Nat × List Flt)) : Run Int :=
  match vars with
  | none => ub UB.uninitialisedRead
  | some (c, d) =>
    if c.length = 0 then ub UB.divisionByZero
    else
      ⟨[Event.sizes (n * sizeofT T % 2 ^ 64) c.length (n * sizeofT T % 2 ^ 64 / c.length),
        Event.error mode (metric_of s)
          (measured_error rnd mode (raw_error B s n data d) (norm_of B s n data)),
        if Flt.lt (measured_error rnd mode (raw_error B s n data d) (norm_of B s n data)) tol
        then Event.success else Event.failure],
       Outcome.ret
        (if Flt.lt (measured_error rnd mode (raw_error B s n data d) (norm_of B s n data)) tol
          then 0 else -1)⟩

/-- The (tolerance, s) pair an event hands to a library compress call, if it is one. -/
def compress_call? : Event → Option (Flt × Flt)
  | Event.cpu_compress _ _ s tol => some (tol, s)
  | Event.gpu_compress _ _ _ tol s => some (tol, s)
  | _ => none

/-- The compress calls recorded in a log, as (tolerance, s) pairs handed to the library. -/
def compress_calls (log : List Event) : List (Flt × Flt) := log.filterMap compress_call?

/-- The template parameter `D` of a library call, tagged `true` for a compress
call and `false` for a decompress call. -/
def backend_call? : Event → Option (Bool × Nat)
  | Event.cpu_compress D _ _ _ => some (true, D)
  | Event.gpu_compress D _ _ _ _ => some (true, D)
  | Event.cpu_decompress D _ _ _ => some (false, D)
  | Event.gpu_decompress D _ => some (false, D)
  | _ => none

/-- The library calls recorded in a log, in order. -/
def backend_calls (log : List Event) : List (Bool × Nat) := log.filterMap backend_call?

/-- The (in size, out size, compression ratio) triple of a size line. -/
def sizes_line? : Event → Option (Nat × Nat × Nat)
  | Event.sizes a b q => some (a, b, q)
  | _ => none

/-- The size lines printed in a log. -/
def sizes_lines (log : List Event) : List (Nat × Nat × Nat) := log.filterMap sizes_line?

/-- The metric and value of a norm computation. -/
def norm_call? : Event → Option (Metric × Flt)
  | Event.norm m v => some (m, v)
  | _ => none

/-- The norm computations recorded in a log. -/
def norm_calls (log : List Event) : List (Metric × Flt) := log.filterMap norm_call?

/-- The metric and value of an error line. -/
def error_line? : Event → Option (Metric × Flt)
  | Event.error _ m v => some (m, v)
  | _ => none

/-- The error lines printed in a log. -/
def error_lines (log : List Event) : List (Metric × Flt) := log.filterMap error_line?

/-- Events that `readfile` writes. -/
def from_readfile : Event → Bool
  | Event.min_max _ _ => true
  | Event.loading _ => true
  | Event.file_error => true
  | Event.size_mismatch _ _ _ => true
  | Event.reading_error => true
  | _ => false

/-- Events that `compression` and `decompression` write: the library calls. -/
def from_backend : Event → Bool
  | Event.cpu_compress _ _ _ _ => true
  | Event.gpu_compress _ _ _ _ _ => true
  | Event.cpu_decompress _ _ _ _ => true
  | Event.gpu_decompress _ _ => true
  | _ => false

/-! # Theorems -/

/-! ## Lemmas on sequencing -/

theorem bind_eq {α β : Type} (r : Run α) (f : α → Run β) : (r >>= f) = Run.bind r f := rfl

theorem pure_eq {α : Type} (a : α) : (pure a : Run α) = ⟨[], Outcome.ret a⟩ := rfl

theorem Run.bind_pure_ret {α β : Type} (a : α) (f : α → Run β) :
    Run.bind ⟨[], Outcome.ret a⟩ f = f a := by
  simp [Run.bind]

theorem Run.bind_assoc {α β γ : Type} (r : Run α) (f : α → Run β) (g : β → Run γ) :
    Run.bind (Run.bind r f) g = Run.bind r (fun a => Run.bind (f a) g) := by
  obtain ⟨l, o⟩ := r
  cases o with
  | ret a =>
    simp only [Run.bind]
    cases h : (f a).out <;> simp [h]
  | exit c => simp [Run.bind]
  | undefined u => simp [Run.bind]

theorem Run.bind_right_ret {α : Type} (r : Run α) :
    Run.bind r (fun a => ⟨[], Outcome.ret a⟩) = r := by
  obtain ⟨l, o⟩ := r
  cases o <;> simp [Run.bind]

theorem Run.bind_of_ret {α β : Type} (r : Run α) (f : α → Run β) (a : α)
    (h : r.out = Outcome.ret a) :
    Run.bind r f = ⟨r.log ++ (f a).log, (f a).out⟩ := by
  simp [Run.bind, h]

theorem Run.bind_out_ret {α β : Type} (r : Run α) (f : α → Run β) (b : β)
    (h : (Run.bind r f).out = Outcome.ret b) :
    ∃ a, r.out = Outcome.ret a ∧ (f a).out = Outcome.ret b := by
  unfold Run.bind at h
  cases hr : r.out with
  | ret a => rw [hr] at h; exact ⟨a, rfl, h⟩
  | exit c => rw [hr] at h; simp at h
  | undefined u => rw [hr] at h; simp at h

/-! ## The dispatch on `D` -/

/-- The five `if (D == k)` statements run the round trip for `D` when `D` is
one of 1, ..., 5 and leave the three variables uninitialised otherwise. -/
theorem test_dispatch_eq (rnd : ℚ → Flt) (B : Backend) (D : Int) (shape : List Nat) (dev : device)
    (tol s : Flt) (mode : error_bound_type) (norm : Flt) (original_data : List Flt)
    (config : Config) :
    test_dispatch rnd B D shape dev tol s mode norm original_data config =
      if 1 ≤ D ∧ D ≤ 5 then round_trip rnd B D.toNat shape dev tol s mode norm original_data config
      else ⟨[], Outcome.ret none⟩ := by
  have key : ∀ k : Nat, D = (k : Int) → 1 ≤ k → k ≤ 5 →
      test_dispatch rnd B D shape dev tol s mode norm original_data config =
        round_trip rnd B k shape dev tol s mode norm original_data config := by
    intro k hk h1 h5
    subst hk
    interval_cases k <;>
      simp [test_dispatch, test_branch, bind_eq, pure_eq, round_trip, Run.bind_pure_ret,
        Run.bind_assoc, Run.bind_right_ret]
  by_cases h : 1 ≤ D ∧ D ≤ 5
  · rw [if_pos h]
    exact key D.toNat (by omega) (by omega) (by omega)
  · rw [if_neg h]
    have h1 : D ≠ 1 := by omega
    have h2 : D ≠ 2 := by omega
    have h3 : D ≠ 3 := by omega
    have h4 : D ≠ 4 := by omega
    have h5 : D ≠ 5 := by omega
    simp [test_dispatch, test_branch, bind_eq, pure_eq, Run.bind_pure_ret, h1, h2, h3, h4, h5]

/-- What `test` yields when loading and the round trip for `D` return. -/
theorem test_of_round_trip (E : Env) (B : Backend) (T : data_type) (D : Int)
    (input_file : String) (dtype : data_type) (shape : List Nat) (dev : device) (tol s : Flt)
    (mode : error_bound_type) (n : Nat) (data : List Flt) (c : List Nat) (d : List Flt)
    (hn : size_of_shape shape D = some n)
    (hdata : (readfile E T input_file (n * sizeofT T % 2 ^ 64) false).out = Outcome.ret data)
    (hD : 1 ≤ D ∧ D ≤ 5)
    (hc : (compression (E.round T) B D.toNat shape dev (narrow E T tol) (narrow E T s) mode
        (norm_of B s n data) data test_config).out
        = Outcome.ret c)
    (hd : (decompression (E.round T) B D.toNat shape dev (narrow E T tol) (narrow E T s) mode
        (norm_of B s n data) c test_config).out
        = Outcome.ret d)
    (hlen : c.length ≠ 0) :
    test E B T D input_file dtype shape dev tol s mode =
      ⟨(readfile E T input_file (n * sizeofT T % 2 ^ 64) false).log ++
          Event.norm (metric_of s) (norm_of B s n data) ::
          ((compression (E.round T) B D.toNat shape dev (narrow E T tol) (narrow E T s) mode
              (norm_of B s n data) data test_config).log ++
           ((decompression (E.round T) B D.toNat shape dev (narrow E T tol) (narrow E T s) mode
               (norm_of B s n data) c test_config).log ++
           [Event.sizes (n * sizeofT T % 2 ^ 64) c.length (n * sizeofT T % 2 ^ 64 / c.length),
            Event.error mode (metric_of s)
              (measured_error (E.round T) mode (raw_error B s n data d) (norm_of B s n data)),
            if Flt.lt (measured_error (E.round T) mode (raw_error B s n data d)
                (norm_of B s n data)) tol
            then Event.success else Event.failure])),
        Outcome.ret
          (if Flt.lt (measured_error (E.round T) mode (raw_error B s n data d)
              (norm_of B s n data)) tol
            then 0 else -1)⟩ := by
  have hnorm : (if Flt.feq s Flt.pinf then B.L_inf_norm n data else B.L_2_norm n data)
      = norm_of B s n data := rfl
  have hmetric : (if Flt.feq s Flt.pinf then Metric.Linf else Metric.L2) = metric_of s := rfl
  have herr : ∀ dd : List Flt,
      (if Flt.feq s Flt.pinf then
          if mode = error_bound_type.REL then
            Flt.div (E.round T) (B.L_inf_error n data dd) (norm_of B s n data)
          else B.L_inf_error n data dd
        else
          if mode = error_bound_type.REL then
            Flt.div (E.round T) (B.L_2_error n data dd) (norm_of B s n data)
          else B.L_2_error n data dd)
      = measured_error (E.round T) mode (raw_error B s n data dd) (norm_of B s n data) := by
    intro dd
    unfold measured_error raw_error
    split_ifs <;> rfl
  unfold test
  rw [hn]
  simp only [bind_eq]
  rw [Run.bind_of_ret _ _ _ hdata]
  simp only [hnorm, hmetric, herr]
  rw [Run.bind_of_ret _ _ _ (rfl : (emit _).out = Outcome.ret ())]
  rw [test_dispatch_eq, if_pos hD]
  unfold round_trip
  rw [Run.bind_assoc, Run.bind_of_ret _ _ _ hc, Run.bind_assoc, Run.bind_of_ret _ _ _ hd]
  simp only [Run.bind_pure_ret, if_neg hlen]
  by_cases hlt : Flt.lt (measured_error (E.round T) mode (raw_error B s n data d)
      (norm_of B s n data)) tol = true
  · simp [hlt, Run.bind, emit, pure_eq]
  · simp [hlt, Run.bind, emit, pure_eq]

/-- A run of `test` that returns has loaded the data and completed the round
trip for a `D` among 1, ..., 5 with a non-empty payload. -/
theorem test_ret_inv (E : Env) (B : Backend) (T : data_type) (D : Int) (input_file : String)
    (dtype : data_type) (shape : List Nat) (dev : device) (tol s : Flt)
    (mode : error_bound_type) (r : Int)
    (h : (test E B T D input_file dtype shape dev tol s mode).out = Outcome.ret r) :
    ∃ n data c d,
      size_of_shape shape D = some n ∧
      (readfile E T input_file (n * sizeofT T % 2 ^ 64) false).out = Outcome.ret data ∧
      (1 ≤ D ∧ D ≤ 5) ∧
      (compression (E.round T) B D.toNat shape dev (narrow E T tol) (narrow E T s) mode
          (norm_of B s n data) data test_config).out
        = Outcome.ret c ∧
      (decompression (E.round T) B D.toNat shape dev (narrow E T tol) (narrow E T s) mode
          (norm_of B s n data) c test_config).out
        = Outcome.ret d ∧
      c.length ≠ 0 := by
  unfold test at h
  cases hn : size_of_shape shape D with
  | none => rw [hn] at h; simp [ub] at h
  | some n =>
    rw [hn] at h
    simp only [bind_eq] at h
    obtain ⟨data, hdata, h⟩ := Run.bind_out_ret _ _ _ h
    obtain ⟨_, _, h⟩ := Run.bind_out_ret _ _ _ h
    obtain ⟨vars, hvars, h⟩ := Run.bind_out_ret _ _ _ h
    rw [test_dispatch_eq] at hvars
    by_cases hD : 1 ≤ D ∧ D ≤ 5
    · rw [if_pos hD] at hvars
      unfold round_trip at hvars
      obtain ⟨c, hc, hvars⟩ := Run.bind_out_ret _ _ _ hvars
      obtain ⟨d, hd, hvars⟩ := Run.bind_out_ret _ _ _ hvars
      simp at hvars
      subst hvars
      simp only at h
      by_cases hlen : c.length = 0
      · simp [hlen, ub] at h
      · exact ⟨n, data, c, d, rfl, hdata, hD, hc, hd, hlen⟩
    · rw [if_neg hD] at hvars
      simp at hvars
      subst hvars
      simp [ub] at h

/-- When `D` is none of 1, ..., 5 and the data are loaded, `test` skips all
five branches and reads the uninitialised `compressed_size` at line 248. -/
theorem test_of_bad_D (E : Env) (B : Backend) (T : data_type) (D : Int)
    (input_file : String) (dtype : data_type) (shape : List Nat) (dev : device) (tol s : Flt)
    (mode : error_bound_type) (n : Nat) (data : List Flt)
    (hn : size_of_shape shape D = some n)
    (hdata : (readfile E T input_file (n * sizeofT T % 2 ^ 64) false).out = Outcome.ret data)
    (hD : ¬ (1 ≤ D ∧ D ≤ 5)) :
    test E B T D input_file dtype shape dev tol s mode =
      ⟨(readfile E T input_file (n * sizeofT T % 2 ^ 64) false).log ++
          [Event.norm (metric_of s) (norm_of B s n data)],
        Outcome.undefined UB.uninitialisedRead⟩ := by
  unfold test
  rw [hn]
  simp only [bind_eq]
  rw [Run.bind_of_ret _ _ _ hdata]
  rw [Run.bind_of_ret _ _ _ (rfl : (emit _).out = Outcome.ret ())]
  rw [test_dispatch_eq, if_neg hD]
  simp [Run.bind, emit, ub, metric_of, norm_of]

/-- The function `test` as the sequence of its stages. -/
theorem test_eq (E : Env) (B : Backend) (T : data_type) (D : Int) (input_file : String)
    (dtype : data_type) (shape : List Nat) (dev : device) (tol s : Flt)
    (mode : error_bound_type) :
    test E B T D input_file dtype shape dev tol s mode =
      match size_of_shape shape D with
      | none => ub UB.outOfBounds
      | some n =>
        Run.bind (readfile E T input_file (n * sizeofT T % 2 ^ 64) false) fun data =>
          Run.bind (emit (Event.norm (metric_of s) (norm_of B s n data))) fun _ =>
            Run.bind (test_dispatch (E.round T) B D shape dev (narrow E T tol) (narrow E T s) mode
                (norm_of B s n data) data test_config)
              (test_tail (E.round T) B T tol s mode n data) := by
  unfold test
  cases hn : size_of_shape shape D with
  | none => rfl
  | some n =>
    simp only [bind_eq]
    congr 1
    funext data
    congr 1
    funext _
    congr 1
    funext vars
    unfold test_tail
    cases vars with
    | none => rfl
    | some p =>
      obtain ⟨c, d⟩ := p
      simp only
      by_cases hlen : c.length = 0
      · simp [hlen]
      · have herr : (if Flt.feq s Flt.pinf then
              if mode = error_bound_type.REL then
                Flt.div (E.round T) (B.L_inf_error n data d)
                  (if Flt.feq s Flt.pinf then B.L_inf_norm n data else B.L_2_norm n data)
              else B.L_inf_error n data d
            else
              if mode = error_bound_type.REL then
                Flt.div (E.round T) (B.L_2_error n data d)
                  (if Flt.feq s Flt.pinf then B.L_inf_norm n data else B.L_2_norm n data)
              else B.L_2_error n data d)
            = measured_error (E.round T) mode (raw_error B s n data d) (norm_of B s n data) := by
          unfold measured_error raw_error norm_of
          split_ifs <;> rfl
        simp only [if_neg hlen, herr]
        by_cases hlt :
            Flt.lt (measured_error (E.round T) mode (raw_error B s n data d)
                (norm_of B s n data)) tol = true
        · simp [hlt, Run.bind, emit, pure_eq, metric_of]
        · simp [hlt, Run.bind, emit, pure_eq, metric_of]

theorem Run.bind_log {α β : Type} (r : Run α) (f : α → Run β) :
    (Run.bind r f).log = r.log ++
      (match r.out with
       | Outcome.ret a => (f a).log
       | _ => []) := by
  unfold Run.bind
  cases r.out <;> simp

theorem Run.bind_out {α β : Type} (r : Run α) (f : α → Run β) :
    (Run.bind r f).out =
      (match r.out with
       | Outcome.ret a => (f a).out
       | Outcome.exit c => Outcome.exit c
       | Outcome.undefined u => Outcome.undefined u) := by
  unfold Run.bind
  cases r.out <;> simp

theorem Flt.lt_irrefl (a : Flt) : Flt.lt a a = false := by
  cases a <;> simp [Flt.lt]

theorem Flt.eq_of_feq (a b : Flt) (h : Flt.feq a b = true) : a = b := by
  cases a <;> cases b <;> simp_all [Flt.feq]

theorem Flt.feq_pinf_iff (s : Flt) : Flt.feq s Flt.pinf = true ↔ s = Flt.pinf := by
  cases s <;> simp [Flt.feq]

/-! ## What the logs contain -/

theorem filterMap_none_of {α β : Type} (f : α → Option β) (l : List α)
    (h : ∀ a ∈ l, f a = none) : l.filterMap f = [] := by
  induction l with
  | nil => rfl
  | cons a l ih =>
    have ha : f a = none := h a (by simp)
    rw [List.filterMap_cons, ha]
    exact ih fun b hb => h b (by simp [hb])

/-- Every event `readfile` logs is one of its own five lines. -/
theorem readfile_log_from (E : Env) (T : data_type) (input_file : String) (num_bytes : Nat)
    (check_size : Bool) :
    ∀ e ∈ (readfile E T input_file num_bytes check_size).log, from_readfile e = true := by
  unfold readfile
  split_ifs with h1
  · split <;> simp [from_readfile]
  · split
    · simp [from_readfile]
    · simp only
      split_ifs <;> simp [from_readfile]

theorem compress_calls_readfile (E : Env) (T : data_type) (input_file : String)
    (num_bytes : Nat) (check_size : Bool) :
    compress_calls (readfile E T input_file num_bytes check_size).log = [] := by
  apply filterMap_none_of
  intro e he
  have := readfile_log_from E T input_file num_bytes check_size e he
  cases e <;> simp_all [from_readfile, compress_call?]

theorem backend_calls_readfile (E : Env) (T : data_type) (input_file : String)
    (num_bytes : Nat) (check_size : Bool) :
    backend_calls (readfile E T input_file num_bytes check_size).log = [] := by
  apply filterMap_none_of
  intro e he
  have := readfile_log_from E T input_file num_bytes check_size e he
  cases e <;> simp_all [from_readfile, backend_call?]

theorem sizes_lines_readfile (E : Env) (T : data_type) (input_file : String)
    (num_bytes : Nat) (check_size : Bool) :
    sizes_lines (readfile E T input_file num_bytes check_size).log = [] := by
  apply filterMap_none_of
  intro e he
  have := readfile_log_from E T input_file num_bytes check_size e he
  cases e <;> simp_all [from_readfile, sizes_line?]

theorem norm_calls_readfile (E : Env) (T : data_type) (input_file : String)
    (num_bytes : Nat) (check_size : Bool) :
    norm_calls (readfile E T input_file num_bytes check_size).log = [] := by
  apply filterMap_none_of
  intro e he
  have := readfile_log_from E T input_file num_bytes check_size e he
  cases e <;> simp_all [from_readfile, norm_call?]

theorem error_lines_readfile (E : Env) (T : data_type) (input_file : String)
    (num_bytes : Nat) (check_size : Bool) :
    error_lines (readfile E T input_file num_bytes check_size).log = [] := by
  apply filterMap_none_of
  intro e he
  have := readfile_log_from E T input_file num_bytes check_size e he
  cases e <;> simp_all [from_readfile, error_line?]

/-- The loop over `shape[i]`, `i < D`, reads inside the vector only when the
vector has at least `D` elements. -/
theorem size_of_shape_some_le (shape : List Nat) (D : Int) (n : Nat)
    (h : size_of_shape shape D = some n) : D.toNat ≤ shape.length := by
  unfold size_of_shape at h
  generalize D.toNat = k at h
  induction k generalizing n with
  | zero => exact Nat.zero_le _
  | succ k ih =>
    rw [List.range_succ, List.foldl_append] at h
    simp only [List.foldl_cons, List.foldl_nil] at h
    cases hk : (List.range k).foldl
        (fun acc i =>
          match acc, shape.get? i with
          | some a, some x => some (a * x % 2 ^ 64)
          | _, _ => none)
        (some 1) with
    | none => rw [hk] at h; simp at h
    | some a =>
      rw [hk] at h
      cases hget : shape.get? k with
      | none => rw [hget] at h; simp at h
      | some x =>
        have hlt : k < shape.length := by
          by_contra hge
          rw [List.get?_eq_none.mpr (Nat.le_of_not_lt hge)] at hget
          cases hget
        omega

/-- What `compression` yields when the shape has `D` extents: one library call;
the CPU library is handed `tol * norm` (computed in `T`) in relative mode, the
GPU library is handed `tol` itself. -/
theorem compression_eq (rnd : ℚ → Flt) (B : Backend) (D : Nat) (shape : List Nat)
    (dev : device) (tol s : Flt) (mode : error_bound_type) (norm : Flt)
    (original_data : List Flt) (config : Config) (hlen : shape.length = D) :
    compression rnd B D shape dev tol s mode norm original_data config =
      match dev with
      | device.CPU =>
        ⟨[Event.cpu_compress D shape s
            (if mode = error_bound_type.REL then Flt.mul rnd tol norm else tol)],
          Outcome.ret (B.cpu_compress D shape original_data s
            (if mode = error_bound_type.REL then Flt.mul rnd tol norm else tol))⟩
      | device.GPU =>
        ⟨[Event.gpu_compress D shape mode tol s],
          Outcome.ret (B.gpu_compress D shape config original_data mode tol s)⟩ := by
  unfold compression
  cases dev <;> simp [hlen]

/-- A shape with more than `D` extents is copied past the end of the array. -/
theorem compression_long_shape (rnd : ℚ → Flt) (B : Backend) (D : Nat) (shape : List Nat)
    (dev : device) (tol s : Flt) (mode : error_bound_type) (norm : Flt)
    (original_data : List Flt) (config : Config) (hlen : D < shape.length) :
    compression rnd B D shape dev tol s mode norm original_data config = ub UB.outOfBounds := by
  unfold compression
  simp [hlen]

theorem compress_calls_decompression (rnd : ℚ → Flt) (B : Backend) (D : Nat)
    (shape : List Nat) (dev : device) (tol s : Flt) (mode : error_bound_type) (norm : Flt)
    (c : List Nat) (config : Config) :
    compress_calls (decompression rnd B D shape dev tol s mode norm c config).log = [] := by
  unfold decompression
  cases size_of_shape shape D <;> cases dev <;> simp [ub, compress_calls, compress_call?]
  split_ifs <;> simp [compress_call?]

theorem compress_calls_test_tail (rnd : ℚ → Flt) (B : Backend) (T : data_type) (tol s : Flt)
    (mode : error_bound_type) (n : Nat) (data : List Flt)
    (vars : Option (List Nat × List Flt)) :
    compress_calls (test_tail rnd B T tol s mode n data vars).log = [] := by
  unfold test_tail
  cases vars with
  | none => simp [ub, compress_calls]
  | some p =>
    obtain ⟨c, d⟩ := p
    simp only
    split_ifs <;> simp [ub, compress_calls, compress_call?]

/-- The compress calls of the dispatch when the vector `shape` has at least `D`
elements: one, for `D` among 1, ..., 5 with a shape of `D` extents, and none
otherwise. -/
theorem compress_calls_dispatch (rnd : ℚ → Flt) (B : Backend) (D : Int) (shape : List Nat)
    (dev : device) (tol s : Flt) (mode : error_bound_type) (norm : Flt)
    (original_data : List Flt) (config : Config) (hle : D.toNat ≤ shape.length) :
    compress_calls (test_dispatch rnd B D shape dev tol s mode norm original_data config).log =
      if (1 ≤ D ∧ D ≤ 5) ∧ shape.length = D.toNat then
        [(if dev = device.CPU ∧ mode = error_bound_type.REL then Flt.mul rnd tol norm
          else tol, s)]
      else [] := by
  rw [test_dispatch_eq]
  by_cases hD : 1 ≤ D ∧ D ≤ 5
  · rw [if_pos hD]
    unfold round_trip
    by_cases hlen : shape.length = D.toNat
    · rw [Run.bind_log]
      rw [compression_eq _ _ _ _ _ _ _ _ _ _ _ hlen]
      cases dev
      · simp only [Run.bind_log]
        have := compress_calls_decompression rnd B D.toNat shape device.CPU tol s mode norm
          (B.cpu_compress D.toNat shape original_data s
            (if mode = error_bound_type.REL then Flt.mul rnd tol norm else tol)) config
        unfold compress_calls at this ⊢
        simp only [List.filterMap_append, this]
        cases (decompression rnd B D.toNat shape device.CPU tol s mode norm
          (B.cpu_compress D.toNat shape original_data s
            (if mode = error_bound_type.REL then Flt.mul rnd tol norm else tol)) config).out <;>
          simp [hD, hlen, compress_call?]
      · simp only [Run.bind_log]
        have := compress_calls_decompression rnd B D.toNat shape device.GPU tol s mode norm
          (B.gpu_compress D.toNat shape config original_data mode tol s) config
        unfold compress_calls at this ⊢
        simp only [List.filterMap_append, this]
        cases (decompression rnd B D.toNat shape device.GPU tol s mode norm
          (B.gpu_compress D.toNat shape config original_data mode tol s) config).out <;>
          simp [hD, hlen, compress_call?]
    · have hlt : D.toNat < shape.length := by omega
      rw [compression_long_shape _ _ _ _ _ _ _ _ _ _ _ hlt]
      simp [Run.bind, ub, compress_calls, hlen]
  · simp [hD, compress_calls]

/-- The compress calls of a run of `test` that has loaded its data are those of
the dispatch. -/
theorem compress_calls_test (E : Env) (B : Backend) (T : data_type) (D : Int)
    (input_file : String) (dtype : data_type) (shape : List Nat) (dev : device) (tol s : Flt)
    (mode : error_bound_type) (n : Nat) (data : List Flt)
    (hn : size_of_shape shape D = some n)
    (hdata : (readfile E T input_file (n * sizeofT T % 2 ^ 64) false).out = Outcome.ret data) :
    compress_calls (test E B T D input_file dtype shape dev tol s mode).log =
      compress_calls
        (test_dispatch (E.round T) B D shape dev (narrow E T tol) (narrow E T s) mode
          (norm_of B s n data) data test_config).log := by
  rw [test_eq, hn]
  simp only [Run.bind_log, hdata]
  have h1 := compress_calls_readfile E T input_file (n * sizeofT T % 2 ^ 64) false
  unfold compress_calls at h1 ⊢
  simp only [List.filterMap_append, h1, List.nil_append]
  simp only [emit, List.singleton_append, List.filterMap_cons, compress_call?]
  cases hv : (test_dispatch (E.round T) B D shape dev (narrow E T tol) (narrow E T s) mode
      (norm_of B s n data) data test_config).out with
  | ret vars =>
    have h2 := compress_calls_test_tail (E.round T) B T tol s mode n data vars
    unfold compress_calls at h2
    simp [h2]
  | exit c => simp
  | undefined u => simp

/-- With exact arithmetic on the platform, conversion to `T` changes nothing. -/
theorem narrow_exact (E : Env) (T : data_type) (hexact : ∀ q, E.round T q = Flt.fin q)
    (x : Flt) : narrow E T x = x := by
  cases T <;> cases x <;> simp [narrow, hexact]

/-- In exact arithmetic, `e / N < t` and `e < t * N` agree for a norm `N > 0`. -/
theorem verdict_rel_abs (e : Flt) (t N : ℚ) (hN : 0 < N) :
    Flt.lt (measured_error Flt.fin error_bound_type.REL e (Flt.fin N)) (Flt.fin t) =
      Flt.lt (measured_error Flt.fin error_bound_type.ABS e (Flt.fin N)) (Flt.fin (t * N)) := by
  have hne : N ≠ 0 := ne_of_gt hN
  have hnl : ¬ N < 0 := not_lt.mpr hN.le
  cases e with
  | fin x =>
    simp only [measured_error, Flt.div, Flt.lt, hne, if_true, if_false, reduceCtorEq]
    rw [decide_eq_decide]
    exact div_lt_iff₀ hN
  | pinf => simp [measured_error, Flt.div, Flt.lt, hnl]
  | ninf => simp [measured_error, Flt.div, Flt.lt, hnl]
  | nan => simp [measured_error, Flt.div, Flt.lt]

theorem test_tail_out_rel_abs (B : Backend) (T : data_type) (s : Flt) (t N : ℚ) (n : Nat)
    (data : List Flt) (vars : Option (List Nat × List Flt))
    (hnorm : norm_of B s n data = Flt.fin N) (hN : 0 < N) :
    (test_tail Flt.fin B T (Flt.fin t) s error_bound_type.REL n data vars).out =
      (test_tail Flt.fin B T (Flt.fin (t * N)) s error_bound_type.ABS n data vars).out := by
  unfold test_tail
  cases vars with
  | none => rfl
  | some p =>
    obtain ⟨c, d⟩ := p
    simp only
    by_cases hlen : c.length = 0
    · simp [hlen]
    · simp only [if_neg hlen, hnorm, verdict_rel_abs _ t N hN]

/-- On the CPU, in exact arithmetic, the dispatch of a relative run with
tolerance `t` and of an absolute run with tolerance `t * N` is the same,
library calls included. -/
theorem test_dispatch_cpu_rel_abs (B : Backend) (D : Int) (shape : List Nat) (s : Flt)
    (t N : ℚ) (data : List Flt) (config : Config) :
    test_dispatch Flt.fin B D shape device.CPU (Flt.fin t) s error_bound_type.REL (Flt.fin N)
        data config =
      test_dispatch Flt.fin B D shape device.CPU (Flt.fin (t * N)) s error_bound_type.ABS
        (Flt.fin N) data config := by
  have hc : ∀ k, compression Flt.fin B k shape device.CPU (Flt.fin t) s error_bound_type.REL
      (Flt.fin N) data config = compression Flt.fin B k shape device.CPU (Flt.fin (t * N)) s
      error_bound_type.ABS (Flt.fin N) data config := by
    intro k
    simp [compression, Flt.mul]
  have hd : ∀ k c, decompression Flt.fin B k shape device.CPU (Flt.fin t) s
      error_bound_type.REL (Flt.fin N) c config = decompression Flt.fin B k shape device.CPU
      (Flt.fin (t * N)) s error_bound_type.ABS (Flt.fin N) c config := by
    intro k c
    simp [decompression, Flt.mul]
  simp only [test_dispatch, test_branch, hc, hd]

theorem compression_log_from (rnd : ℚ → Flt) (B : Backend) (D : Nat) (shape : List Nat)
    (dev : device) (tol s : Flt) (mode : error_bound_type) (norm : Flt)
    (original_data : List Flt) (config : Config) :
    ∀ e ∈ (compression rnd B D shape dev tol s mode norm original_data config).log,
      from_backend e = true := by
  unfold compression
  by_cases h1 : D < shape.length
  · simp [h1, ub]
  · cases dev with
    | CPU => by_cases h2 : shape.length < D <;> simp [h1, h2, ub, from_backend]
    | GPU => simp [h1, from_backend]

theorem decompression_log_from (rnd : ℚ → Flt) (B : Backend) (D : Nat) (shape : List Nat)
    (dev : device) (tol s : Flt) (mode : error_bound_type) (norm : Flt) (c : List Nat)
    (config : Config) :
    ∀ e ∈ (decompression rnd B D shape dev tol s mode norm c config).log,
      from_backend e = true := by
  unfold decompression
  cases size_of_shape shape D with
  | none => simp [ub]
  | some n =>
    cases dev with
    | CPU =>
      simp only
      split_ifs <;> simp [ub, from_backend]
    | GPU => simp [from_backend]

theorem Run.bind_log_forall {α β : Type} (P : Event → Prop) (r : Run α) (f : α → Run β)
    (hr : ∀ e ∈ r.log, P e) (hf : ∀ a, ∀ e ∈ (f a).log, P e) :
    ∀ e ∈ (Run.bind r f).log, P e := by
  intro e he
  rw [Run.bind_log] at he
  rcases List.mem_append.mp he with h | h
  · exact hr e h
  · cases hout : r.out with
    | ret a => rw [hout] at h; exact hf a e h
    | exit c => rw [hout] at h; simp at h
    | undefined u => rw [hout] at h; simp at h

/-- The dispatch logs library calls only. -/
theorem test_dispatch_log_from (rnd : ℚ → Flt) (B : Backend) (D : Int) (shape : List Nat)
    (dev : device)
    (tol s : Flt) (mode : error_bound_type) (norm : Flt) (original_data : List Flt)
    (config : Config) :
    ∀ e ∈ (test_dispatch rnd B D shape dev tol s mode norm original_data config).log,
      from_backend e = true := by
  rw [test_dispatch_eq]
  split_ifs
  · unfold round_trip
    apply Run.bind_log_forall
    · exact compression_log_from _ _ _ _ _ _ _ _ _ _ _
    · intro c
      apply Run.bind_log_forall
      · exact decompression_log_from _ _ _ _ _ _ _ _ _ _ _
      · intro d e he
        simp at he
  · simp

/-- The log of a run of `test` that has loaded its data: the lines of
`readfile`, the norm, the library calls of the dispatch and, when the dispatch
returns, the lines of the closing stage. -/
theorem test_log (E : Env) (B : Backend) (T : data_type) (D : Int)
    (input_file : String) (dtype : data_type) (shape : List Nat) (dev : device) (tol s : Flt)
    (mode : error_bound_type) (n : Nat) (data : List Flt)
    (hn : size_of_shape shape D = some n)
    (hdata : (readfile E T input_file (n * sizeofT T % 2 ^ 64) false).out = Outcome.ret data) :
    (test E B T D input_file dtype shape dev tol s mode).log =
      (readfile E T input_file (n * sizeofT T % 2 ^ 64) false).log ++
        Event.norm (metric_of s) (norm_of B s n data) ::
          ((test_dispatch (E.round T) B D shape dev (narrow E T tol) (narrow E T s) mode
              (norm_of B s n data) data test_config).log ++
            match (test_dispatch (E.round T) B D shape dev (narrow E T tol) (narrow E T s) mode
                (norm_of B s n data) data
              test_config).out with
            | Outcome.ret vars => (test_tail (E.round T) B T tol s mode n data vars).log
            | _ => []) := by
  rw [test_eq, hn]
  simp only [Run.bind_log, hdata, emit, List.singleton_append]
  cases (test_dispatch (E.round T) B D shape dev (narrow E T tol) (narrow E T s) mode
      (norm_of B s n data) data test_config).out <;> rfl

theorem sizes_lines_dispatch (rnd : ℚ → Flt) (B : Backend) (D : Int) (shape : List Nat)
    (dev : device)
    (tol s : Flt) (mode : error_bound_type) (norm : Flt) (original_data : List Flt)
    (config : Config) :
    sizes_lines (test_dispatch rnd B D shape dev tol s
        mode norm original_data config).log = [] := by
  apply filterMap_none_of
  intro e he
  have := test_dispatch_log_from rnd B D shape dev tol s mode norm original_data config e he
  cases e <;> simp_all [from_backend, sizes_line?]

theorem norm_calls_dispatch (rnd : ℚ → Flt) (B : Backend) (D : Int) (shape : List Nat)
    (dev : device)
    (tol s : Flt) (mode : error_bound_type) (norm : Flt) (original_data : List Flt)
    (config : Config) :
    norm_calls (test_dispatch rnd B D shape dev tol s mode norm original_data config).log = [] := by
  apply filterMap_none_of
  intro e he
  have := test_dispatch_log_from rnd B D shape dev tol s mode norm original_data config e he
  cases e <;> simp_all [from_backend, norm_call?]

theorem error_lines_dispatch (rnd : ℚ → Flt) (B : Backend) (D : Int) (shape : List Nat)
    (dev : device)
    (tol s : Flt) (mode : error_bound_type) (norm : Flt) (original_data : List Flt)
    (config : Config) :
    error_lines (test_dispatch rnd B D shape dev tol s
        mode norm original_data config).log = [] := by
  apply filterMap_none_of
  intro e he
  have := test_dispatch_log_from rnd B D shape dev tol s mode norm original_data config e he
  cases e <;> simp_all [from_backend, error_line?]

/-- What the closing stage yields on initialised variables with a non-empty payload. -/
theorem test_tail_some (rnd : ℚ → Flt) (B : Backend) (T : data_type)
    (tol s : Flt) (mode : error_bound_type)
    (n : Nat) (data : List Flt) (c : List Nat) (d : List Flt) (hlen : c.length ≠ 0) :
    test_tail rnd B T tol s mode n data (some (c, d)) =
      ⟨[Event.sizes (n * sizeofT T % 2 ^ 64) c.length (n * sizeofT T % 2 ^ 64 / c.length),
        Event.error mode (metric_of s)
          (measured_error rnd mode (raw_error B s n data d) (norm_of B s n data)),
        if Flt.lt (measured_error rnd mode (raw_error B s n data d) (norm_of B s n data)) tol
        then Event.success else Event.failure],
       Outcome.ret
        (if Flt.lt (measured_error rnd mode (raw_error B s n data d) (norm_of B s n data)) tol
          then 0 else -1)⟩ := by
  simp [test_tail, hlen]

/-- A run of `test` that returns went through the closing stage with
initialised variables and a non-empty payload. -/
theorem test_ret_dispatch (E : Env) (B : Backend) (T : data_type) (D : Int)
    (input_file : String) (dtype : data_type) (shape : List Nat) (dev : device) (tol s : Flt)
    (mode : error_bound_type) (r : Int)
    (h : (test E B T D input_file dtype shape dev tol s mode).out = Outcome.ret r) :
    ∃ n data c d,
      size_of_shape shape D = some n ∧
      (readfile E T input_file (n * sizeofT T % 2 ^ 64) false).out = Outcome.ret data ∧
      (test_dispatch (E.round T) B D shape dev (narrow E T tol) (narrow E T s) mode
          (norm_of B s n data) data test_config).out =
        Outcome.ret (some (c, d)) ∧
      (compression (E.round T) B D.toNat shape dev (narrow E T tol) (narrow E T s) mode
          (norm_of B s n data) data test_config).out
        = Outcome.ret c ∧
      (decompression (E.round T) B D.toNat shape dev (narrow E T tol) (narrow E T s) mode
          (norm_of B s n data) c test_config).out
        = Outcome.ret d ∧
      c.length ≠ 0 := by
  obtain ⟨n, data, c, d, hn, hdata, hD, hc, hd, hlen⟩ := test_ret_inv _ _ _ _ _ _ _ _ _ _ _ _ h
  refine ⟨n, data, c, d, hn, hdata, ?_, hc, hd, hlen⟩
  rw [test_dispatch_eq, if_pos hD]
  unfold round_trip
  simp [Run.bind_out, hc, hd]

/-! ## Parsing of the shape in `main` -/

theorem dim_lt_of_lt (dimBits d K : Nat) (hd : d < K) (hK : K < 2 ^ dimBits) :
    dim_lt dimBits d (K : Int) = true := by
  unfold dim_lt
  have hK2 : ((K : Int)) < (2 : Int) ^ dimBits := by exact_mod_cast hK
  have hmod : (K : Int) % (2 : Int) ^ dimBits = K :=
    Int.emod_eq_of_lt (Int.natCast_nonneg K) hK2
  split_ifs
  · simpa using hd
  · rw [hmod]; simpa using hd

theorem dim_lt_self (dimBits K : Nat) (hK : K < 2 ^ dimBits) :
    dim_lt dimBits K (K : Int) = false := by
  unfold dim_lt
  have hK2 : ((K : Int)) < (2 : Int) ^ dimBits := by exact_mod_cast hK
  have hmod : (K : Int) % (2 : Int) ^ dimBits = K :=
    Int.emod_eq_of_lt (Int.natCast_nonneg K) hK2
  split_ifs
  · simp
  · rw [hmod]; simp

/-- The shape loop consumes exactly `D` arguments when they are there and the
counter type can hold `D`. -/
theorem parse_shape_append (dimBits : Nat) (atoi : String → Int) (K : Nat)
    (hK : K < 2 ^ dimBits) (rest : List String) :
    ∀ (dims : List String) (d : Nat) (shape : List Nat), d + dims.length = K →
      parse_shape dimBits atoi (K : Int) (dims ++ rest) d shape =
        some (shape ++ dims.map fun a => to_SIZE (atoi a), rest) := by
  intro dims
  induction dims with
  | nil =>
    intro d shape hd
    simp only [List.length_nil, Nat.add_zero] at hd
    subst hd
    cases rest with
    | nil => simp [parse_shape, dim_lt_self dimBits d hK]
    | cons a rest => simp [parse_shape, dim_lt_self dimBits d hK]
  | cons a dims ih =>
    intro d shape hd
    simp only [List.length_cons] at hd
    have hlt : d < K := by omega
    have hwrap : (d + 1) % 2 ^ dimBits = d + 1 := Nat.mod_eq_of_lt (by omega)
    have hstep : parse_shape dimBits atoi (K : Int) (a :: (dims ++ rest)) d shape =
        parse_shape dimBits atoi (K : Int) (dims ++ rest) (d + 1)
          (shape ++ [to_SIZE (atoi a)]) := by
      rw [parse_shape, dim_lt_of_lt dimBits d K hlt hK, if_pos rfl, hwrap]
    rw [List.cons_append, hstep, ih (d + 1) _ (by omega)]
    simp


/-! ## The synthetic data of `readfile` -/

/-- With more iterations left than the `int` counter can still count, the loop
runs into the signed overflow. -/
theorem fill_random_overflow (rand : Nat → Int) :
    ∀ (j k i : Nat) (buf : List Flt), i + j = INT_MAX → j < k →
      fill_random rand k i buf = Outcome.undefined UB.signedOverflow := by
  intro j
  induction j with
  | zero =>
    intro k i buf hi hk
    obtain ⟨k, rfl⟩ : ∃ m, k = m + 1 := ⟨k - 1, by omega⟩
    have : i = INT_MAX := by omega
    simp [fill_random, this]
  | succ j ih =>
    intro k i buf hi hk
    obtain ⟨k, rfl⟩ : ∃ m, k = m + 1 := ⟨k - 1, by omega⟩
    have hne : i ≠ INT_MAX := by omega
    rw [fill_random, if_neg hne]
    exact ih k (i + 1) _ (by omega) (by omega)

/-- With no more iterations left than the `int` counter can count, the loop
returns the buffer extended by one element per iteration. -/
theorem fill_random_ret (rand : Nat → Int) :
    ∀ (k i : Nat) (buf : List Flt), i + k ≤ INT_MAX →
      fill_random rand k i buf =
        Outcome.ret
          (buf ++ (List.range' i k).map fun m => Flt.ofInt (Int.tmod (rand m) 100 + 1)) := by
  intro k
  induction k with
  | zero =>
    intro i buf _
    simp [fill_random]
  | succ k ih =>
    intro i buf hi
    have hne : i ≠ INT_MAX := by omega
    rw [fill_random, if_neg hne, ih (i + 1) _ (by omega)]
    simp [List.range'_succ]

/-- The synthetic branch of `readfile` for an element count that an `int` can
reach: the buffer holds `num_bytes / sizeof(T)` elements, the element of index
`m` being `rand() % 100 + 1` for the `m`-th value of the generator. -/
theorem readfile_random_ret (E : Env) (T : data_type) (num_bytes : Nat) (check_size : Bool)
    (hn : num_bytes / sizeofT T ≤ INT_MAX) :
    (readfile E T "random" num_bytes check_size).out =
      Outcome.ret ((List.range (num_bytes / sizeofT T)).map fun m =>
        Flt.ofInt (Int.tmod (E.rand m) 100 + 1)) := by
  have h := fill_random_ret E.rand (num_bytes / sizeofT T) 0 [] (by omega)
  simp only [readfile, if_true, h]
  simp [List.range_eq_range']

/-- For element counts up to `INT_MAX` and a generator that returns
non-negative integers, the synthetic branch of `readfile` writes exactly
`num_bytes / sizeof(T)` elements, each an integer between 1 and 100. -/
theorem readfile_random_in_range (E : Env) (T : data_type) (num_bytes : Nat)
    (check_size : Bool) (hn : num_bytes / sizeofT T ≤ INT_MAX) (hrand : ∀ m, 0 ≤ E.rand m) :
    ∃ in_buff, (readfile E T "random" num_bytes check_size).out = Outcome.ret in_buff ∧
      in_buff.length = num_bytes / sizeofT T ∧
      ∀ x ∈ in_buff, ∃ v : Int, x = Flt.fin (v : ℚ) ∧ 1 ≤ v ∧ v ≤ 100 := by
  refine ⟨_, readfile_random_ret E T num_bytes check_size hn, by simp, ?_⟩
  intro x hx
  simp only [List.mem_map, List.mem_range] at hx
  obtain ⟨m, _, rfl⟩ := hx
  refine ⟨Int.tmod (E.rand m) 100 + 1, rfl, ?_, ?_⟩
  · have := Int.tmod_nonneg 100 (hrand m)
    omega
  · have := Int.tmod_lt_of_pos (E.rand m) (by norm_num : (0 : Int) < 100)
    omega


theorem norm_calls_test_tail (rnd : ℚ → Flt) (B : Backend) (T : data_type) (tol s : Flt)
    (mode : error_bound_type) (n : Nat) (data : List Flt) (vars : Option (List Nat × List Flt)) :
    norm_calls (test_tail rnd B T tol s mode n data vars).log = [] := by
  unfold test_tail
  cases vars with
  | none => simp [ub, norm_calls]
  | some p =>
    obtain ⟨c, d⟩ := p
    simp only
    split_ifs <;> simp [ub, norm_calls, norm_call?]

theorem error_lines_test_tail (rnd : ℚ → Flt) (B : Backend) (T : data_type) (tol s : Flt)
    (mode : error_bound_type) (n : Nat) (data : List Flt) (vars : Option (List Nat × List Flt)) :
    ∀ p ∈ error_lines (test_tail rnd B T tol s mode n data vars).log, p.1 = metric_of s := by
  unfold test_tail
  cases vars with
  | none => simp [ub, error_lines]
  | some p =>
    obtain ⟨c, d⟩ := p
    simp only
    split_ifs <;> simp [ub, error_lines, error_line?]


/-- The synthetic branch of `readfile` for an element count beyond `INT_MAX`:
the `int` counter overflows before the loop ends. -/
theorem readfile_random_overflow (E : Env) (T : data_type) (num_bytes : Nat)
    (check_size : Bool) (hn : INT_MAX < num_bytes / sizeofT T) :
    readfile E T "random" num_bytes check_size = ⟨[], Outcome.undefined UB.signedOverflow⟩ := by
  have h := fill_random_overflow E.rand INT_MAX (num_bytes / sizeofT T) 0 [] (Nat.zero_add _) hn
  unfold readfile
  rw [if_pos rfl, h]

/-- A run of `test` on synthetic data with more than `INT_MAX` elements ends in
the overflow of the counter of `readfile`. -/
theorem test_random_overflow (E : Env) (B : Backend) (T : data_type) (D : Int)
    (dtype : data_type) (shape : List Nat) (dev : device) (tol s : Flt)
    (mode : error_bound_type) (n : Nat) (hn : size_of_shape shape D = some n)
    (hbig : INT_MAX < n * sizeofT T % 2 ^ 64 / sizeofT T) :
    test E B T D "random" dtype shape dev tol s mode =
      ⟨[], Outcome.undefined UB.signedOverflow⟩ := by
  rw [test_eq, hn]
  simp only [readfile_random_overflow E T _ false hbig, Run.bind]

/-- The second value `min_max` prints for a buffer of finite values: the
largest of 0 and the elements. -/
theorem min_max_snd (qs : List ℚ) :
    (min_max qs.length (qs.map Flt.fin)).2 = Flt.fin (qs.foldl max 0) := by
  have key : ∀ (qs : List ℚ) (a : Flt) (b : ℚ),
      ((qs.map Flt.fin).foldl min_max_step (a, Flt.fin b)).2 = Flt.fin (qs.foldl max b) := by
    intro qs
    induction qs with
    | nil => intro a b; rfl
    | cons q qs ih =>
      intro a b
      simp only [List.map_cons, List.foldl_cons]
      by_cases hlt : b < q
      · have : min_max_step (a, Flt.fin b) (Flt.fin q) =
            (if Flt.gt a (Flt.fin q) then Flt.fin q else a, Flt.fin q) := by
          simp [min_max_step, Flt.lt, hlt]
        rw [this, ih, max_eq_right hlt.le]
      · have : min_max_step (a, Flt.fin b) (Flt.fin q) =
            (if Flt.gt a (Flt.fin q) then Flt.fin q else a, Flt.fin b) := by
          simp [min_max_step, Flt.lt, hlt]
        rw [this, ih, max_eq_left (not_lt.mp hlt)]
  unfold min_max
  have htake : (qs.map Flt.fin).take qs.length = qs.map Flt.fin := by
    rw [List.take_of_length_le]
    simp
  rw [htake]
  exact key qs Flt.pinf 0


/-- For `D` among 1, ..., 5, a run of `test` that returns has called the
library twice: `compression<D, T>` once, then `decompression<D, T>` once. -/
theorem test_calls_pair_once (E : Env) (B : Backend) (T : data_type) (D : Int)
    (input_file : String) (dtype : data_type) (shape : List Nat) (dev : device) (tol s : Flt)
    (mode : error_bound_type) (r : Int)
    (h : (test E B T D input_file dtype shape dev tol s mode).out = Outcome.ret r) :
    (1 ≤ D ∧ D ≤ 5) ∧
    backend_calls (test E B T D input_file dtype shape dev tol s mode).log =
      [(true, D.toNat), (false, D.toNat)] := by
  obtain ⟨n, data, c, d, hn, hdata, hD, hc, hd, hlen⟩ := test_ret_inv _ _ _ _ _ _ _ _ _ _ _ _ h
  refine ⟨hD, ?_⟩
  rw [test_of_round_trip E B T D input_file dtype shape dev tol s mode n data c d
    hn hdata hD hc hd hlen]
  have h1 := backend_calls_readfile E T input_file (n * sizeofT T % 2 ^ 64) false
  have hshape : shape.length = D.toNat := by
    have hle := size_of_shape_some_le shape D n hn
    by_contra hne
    have hlt : D.toNat < shape.length := by omega
    rw [compression_long_shape _ _ _ _ _ _ _ _ _ _ _ hlt] at hc
    simp [ub] at hc
  have hclog : backend_calls
      (compression (E.round T) B D.toNat shape dev (narrow E T tol) (narrow E T s) mode
          (norm_of B s n data) data test_config).log =
      [(true, D.toNat)] := by
    rw [compression_eq _ _ _ _ _ _ _ _ _ _ _ hshape]
    cases dev <;> simp [backend_calls, backend_call?]
  have hdlog : backend_calls
      (decompression (E.round T) B D.toNat shape dev (narrow E T tol) (narrow E T s) mode
          (norm_of B s n data) c test_config).log =
      [(false, D.toNat)] := by
    unfold decompression at hd ⊢
    cases hsz : size_of_shape shape D.toNat with
    | none => rw [hsz] at hd; simp [ub] at hd
    | some m =>
      cases dev <;> simp [hshape, backend_calls, backend_call?]
  unfold backend_calls at h1 hclog hdlog ⊢
  simp only [List.filterMap_append, List.filterMap_cons, h1, hclog, hdlog, backend_call?]
  split_ifs <;> simp

/-- The rounding of `error /= norm` decides the verdict at the boundary: in
single precision with error 1 and norm 3, the quotient is rounded to the `float`
0x1.555556p-2; with that value as tolerance the measured error equals the
tolerance and `test` returns -1, although the exact quotient 1/3 is below it. -/
theorem test_float_third_boundary :
    (test thirdEnv normThreeBackend data_type.SINGLE 1 "random" data_type.SINGLE [1]
        device.CPU (Flt.fin (11184811 / 33554432)) (Flt.fin 0) error_bound_type.REL).out
      = Outcome.ret (-1) ∧
    Flt.lt (Flt.div Flt.fin (Flt.fin 1) (Flt.fin 3)) (Flt.fin (11184811 / 33554432)) = true := by
  have hn : size_of_shape [1] 1 = some 1 := by decide
  have hdata : (readfile thirdEnv data_type.SINGLE "random"
      (1 * sizeofT data_type.SINGLE % 2 ^ 64) false).out = Outcome.ret [Flt.fin 4] := by decide
  have hrun := test_of_round_trip thirdEnv normThreeBackend data_type.SINGLE 1 "random"
    data_type.SINGLE [1] device.CPU (Flt.fin (11184811 / 33554432)) (Flt.fin 0)
    error_bound_type.REL 1 [Flt.fin 4] [0, 0, 0, 0, 4] [Flt.fin 4] hn hdata (by decide)
    (by rw [compression_eq _ _ (Int.toNat 1) _ _ _ _ _ _ _ _ (by decide)]; rfl)
    (by simp [decompression, hn]; rfl)
    (by decide)
  constructor
  · rw [hrun]
    simp [measured_error, raw_error, norm_of, Flt.feq, Flt.div, Flt.lt, thirdEnv,
      normThreeBackend, demoBackend]
  · simp only [Flt.div, Flt.lt]
    norm_num


/-! ## The claims -/

/-- Claim C1: a run of `test` that reaches the verdict prints the measured
error `e`, the value of the variable `error` at line 262 (the L-infinity or L2
error of the reconstruction, in relative mode divided by the norm in `T`), and
returns 0 exactly when `e < tol`, and -1 otherwise; in particular it returns -1
when `e == tol`. -/
theorem test_verdict_strict (E : Env) (B : Backend) (T : data_type) (D : Int)
    (input_file : String) (dtype : data_type) (shape : List Nat) (dev : device) (tol s : Flt)
    (mode : error_bound_type) (r : Int)
    (h : (test E B T D input_file dtype shape dev tol s mode).out = Outcome.ret r) :
    ∃ n data c d e,
      size_of_shape shape D = some n ∧
      (readfile E T input_file (n * sizeofT T % 2 ^ 64) false).out = Outcome.ret data ∧
      (compression (E.round T) B D.toNat shape dev (narrow E T tol) (narrow E T s) mode
        (norm_of B s n data) data test_config).out = Outcome.ret c ∧
      (decompression (E.round T) B D.toNat shape dev (narrow E T tol) (narrow E T s) mode
        (norm_of B s n data) c test_config).out = Outcome.ret d ∧
      e = (if mode = error_bound_type.REL then
            Flt.div (E.round T) (raw_error B s n data d) (norm_of B s n data)
          else raw_error B s n data d) ∧
      Event.error mode (metric_of s) e ∈ (test E B T D input_file dtype shape dev tol s mode).log ∧
      (r = 0 ↔ Flt.lt e tol = true) ∧
      (r = -1 ↔ Flt.lt e tol = false) ∧
      (Flt.feq e tol = true → r = -1) := by
  obtain ⟨n, data, c, d, hn, hdata, hD, hc, hd, hlen⟩ := test_ret_inv _ _ _ _ _ _ _ _ _ _ _ _ h
  have hrun := test_of_round_trip E B T D input_file dtype shape dev tol s mode n data c d
    hn hdata hD hc hd hlen
  rw [hrun] at h ⊢
  simp only [Outcome.ret.injEq] at h
  refine ⟨n, data, c, d, measured_error (E.round T) mode (raw_error B s n data d)
    (norm_of B s n data), hn, hdata, hc, hd, rfl, by simp, ?_, ?_, ?_⟩
  · rw [← h]; split_ifs with hlt <;> simp [hlt]
  · rw [← h]; split_ifs with hlt <;> simp [hlt]
  · intro heq
    have := Flt.eq_of_feq _ _ heq
    rw [← h, this, Flt.lt_irrefl]
    simp

/-- Witness for C1: a run on synthetic data whose measured error 1 equals the
tolerance 1 reaches the verdict and returns -1. -/
theorem test_verdict_strict_witness :
    (test demoEnv demoBackend data_type.SINGLE 1 "random" data_type.SINGLE [1] device.CPU
        (Flt.fin 1) (Flt.fin 0) error_bound_type.ABS).out = Outcome.ret (-1) ∧
    ∃ n data c d e,
      size_of_shape [1] 1 = some n ∧
      (readfile demoEnv data_type.SINGLE "random" (n * sizeofT data_type.SINGLE % 2 ^ 64)
        false).out = Outcome.ret data ∧
      (compression (demoEnv.round data_type.SINGLE) demoBackend (1 : Int).toNat [1] device.CPU
        (narrow demoEnv data_type.SINGLE (Flt.fin 1))
        (narrow demoEnv data_type.SINGLE (Flt.fin 0))
        error_bound_type.ABS (norm_of demoBackend (Flt.fin 0) n data) data test_config).out
        = Outcome.ret c ∧
      (decompression (demoEnv.round data_type.SINGLE) demoBackend (1 : Int).toNat [1]
        device.CPU (narrow demoEnv data_type.SINGLE (Flt.fin 1))
        (narrow demoEnv data_type.SINGLE (Flt.fin 0))
        error_bound_type.ABS (norm_of demoBackend (Flt.fin 0) n data) c test_config).out
        = Outcome.ret d ∧
      e = (if error_bound_type.ABS = error_bound_type.REL then
            Flt.div (demoEnv.round data_type.SINGLE) (raw_error demoBackend (Flt.fin 0) n data d)
              (norm_of demoBackend (Flt.fin 0) n data)
          else raw_error demoBackend (Flt.fin 0) n data d) ∧
      Event.error error_bound_type.ABS (metric_of (Flt.fin 0)) e ∈
        (test demoEnv demoBackend data_type.SINGLE 1 "random" data_type.SINGLE [1] device.CPU
          (Flt.fin 1) (Flt.fin 0) error_bound_type.ABS).log ∧
      ((-1 : Int) = 0 ↔ Flt.lt e (Flt.fin 1) = true) ∧
      ((-1 : Int) = -1 ↔ Flt.lt e (Flt.fin 1) = false) ∧
      (Flt.feq e (Flt.fin 1) = true → (-1 : Int) = -1) :=
  ⟨by decide, test_verdict_strict _ _ _ _ _ _ _ _ _ _ _ (-1) (by decide)⟩

/-- Claim C2: in exact arithmetic, for data whose norm is `N > 0`, a run of
`test` in relative mode with tolerance `t` and a run in absolute mode with
tolerance `t * N` end the same way (same return value), provided that on the GPU
the library yields the same payload and reconstruction in both runs; on the
CPU both runs hand the library the tolerance `t * N`. -/
theorem rel_abs_equivalence (E : Env) (B : Backend) (T : data_type) (D : Int)
    (input_file : String) (dtype : data_type) (shape : List Nat) (dev : device) (s : Flt)
    (t N : ℚ) (n : Nat) (data : List Flt)
    (hexact : ∀ q, E.round T q = Flt.fin q)
    (hn : size_of_shape shape D = some n)
    (hdata : (readfile E T input_file (n * sizeofT T % 2 ^ 64) false).out = Outcome.ret data)
    (hnorm : norm_of B s n data = Flt.fin N) (hN : 0 < N)
    (hgpu : dev = device.GPU →
      (test_dispatch (E.round T) B D shape device.GPU (Flt.fin t) s error_bound_type.REL
        (Flt.fin N) data test_config).out =
      (test_dispatch (E.round T) B D shape device.GPU (Flt.fin (t * N)) s error_bound_type.ABS
        (Flt.fin N) data test_config).out) :
    (test E B T D input_file dtype shape dev (Flt.fin t) s error_bound_type.REL).out =
      (test E B T D input_file dtype shape dev (Flt.fin (t * N)) s error_bound_type.ABS).out ∧
    (dev = device.CPU →
      compress_calls
          (test E B T D input_file dtype shape dev (Flt.fin t) s error_bound_type.REL).log =
        (if (1 ≤ D ∧ D ≤ 5) ∧ shape.length = D.toNat then [(Flt.fin (t * N), s)] else []) ∧
      compress_calls
          (test E B T D input_file dtype shape dev (Flt.fin (t * N)) s error_bound_type.ABS).log =
        (if (1 ≤ D ∧ D ≤ 5) ∧ shape.length = D.toNat then [(Flt.fin (t * N), s)] else [])) := by
  have hr : E.round T = Flt.fin := funext hexact
  have hnar : ∀ x, narrow E T x = x := narrow_exact E T hexact
  have hle := size_of_shape_some_le shape D n hn
  rw [hr] at hgpu
  constructor
  · have hdisp : (test_dispatch Flt.fin B D shape dev (Flt.fin t) s error_bound_type.REL
          (Flt.fin N) data test_config).out =
        (test_dispatch Flt.fin B D shape dev (Flt.fin (t * N)) s error_bound_type.ABS (Flt.fin N)
          data test_config).out := by
      cases dev with
      | CPU => rw [test_dispatch_cpu_rel_abs]
      | GPU => exact hgpu rfl
    rw [test_eq, test_eq, hn]
    simp only [Run.bind_out, hdata, emit, hnorm, hnar, hr, hdisp]
    cases (test_dispatch Flt.fin B D shape dev (Flt.fin (t * N)) s error_bound_type.ABS
          (Flt.fin N) data test_config).out with
    | ret vars => exact test_tail_out_rel_abs B T s t N n data vars hnorm hN
    | exit c => rfl
    | undefined u => rfl
  · intro hdev
    subst hdev
    rw [compress_calls_test E B T D input_file dtype shape device.CPU _ s _ n data hn hdata,
      compress_calls_test E B T D input_file dtype shape device.CPU _ s _ n data hn hdata,
      compress_calls_dispatch _ _ _ _ _ _ _ _ _ _ _ hle,
      compress_calls_dispatch _ _ _ _ _ _ _ _ _ _ _ hle, hnorm]
    simp [Flt.mul, hnar, hr]

/-- Witness for C2: a CPU run on synthetic data with norm 2, relative tolerance 1
against absolute tolerance 2. -/
theorem rel_abs_equivalence_witness :
    (∀ q, demoEnv.round data_type.SINGLE q = Flt.fin q) ∧
    size_of_shape [1] 1 = some 1 ∧
    (readfile demoEnv data_type.SINGLE "random" (1 * sizeofT data_type.SINGLE % 2 ^ 64) false).out
      = Outcome.ret [Flt.fin 4] ∧
    norm_of demoBackend (Flt.fin 0) 1 [Flt.fin 4] = Flt.fin 2 ∧ (0 : ℚ) < 2 ∧
    (test demoEnv demoBackend data_type.SINGLE 1 "random" data_type.SINGLE [1] device.CPU
        (Flt.fin 1) (Flt.fin 0) error_bound_type.REL).out =
      (test demoEnv demoBackend data_type.SINGLE 1 "random" data_type.SINGLE [1] device.CPU
        (Flt.fin (1 * 2)) (Flt.fin 0) error_bound_type.ABS).out ∧
    compress_calls
        (test demoEnv demoBackend data_type.SINGLE 1 "random" data_type.SINGLE [1] device.CPU
          (Flt.fin 1) (Flt.fin 0) error_bound_type.REL).log = [(Flt.fin (1 * 2), Flt.fin 0)] ∧
    compress_calls
        (test demoEnv demoBackend data_type.SINGLE 1 "random" data_type.SINGLE [1] device.CPU
          (Flt.fin (1 * 2)) (Flt.fin 0) error_bound_type.ABS).log =
        [(Flt.fin (1 * 2), Flt.fin 0)] :=
  have h := rel_abs_equivalence demoEnv demoBackend data_type.SINGLE 1 "random" data_type.SINGLE
    [1] device.CPU (Flt.fin 0) 1 2 1 [Flt.fin 4] (fun _ => rfl) (by decide) (by decide)
    (by decide) (by norm_num) (by intro h; cases h)
  ⟨fun _ => rfl, by decide, by decide, by decide, by norm_num, h.1, by simpa using (h.2 rfl).1,
    by simpa using (h.2 rfl).2⟩

/-- Counterexample to C3 as stated: on the CPU in relative mode, with tolerance
1 and norm 2 (exact arithmetic), `compression` hands the library the tolerance
2, not 1. -/
theorem compression_cpu_rel_hands_adjusted :
    ¬ (∀ (rnd : ℚ → Flt) (B : Backend) (D : Nat) (shape : List Nat) (dev : device)
        (tol s : Flt) (mode : error_bound_type) (norm : Flt) (original_data : List Flt)
        (config : Config),
        shape.length = D →
        compress_calls
          (compression rnd B D shape dev tol s mode norm original_data config).log
          = [(tol, s)]) := by
  intro h
  have h1 := h Flt.fin demoBackend 1 [1] device.CPU (Flt.fin 1) (Flt.fin 0)
    error_bound_type.REL (Flt.fin 2) [Flt.fin 4] test_config rfl
  simp [compress_calls, compress_call?, compression, Flt.mul] at h1

/-- Claim C3, amended: whenever `compression` reaches its library call (a shape
of `D` extents; on the GPU, which does not read the copied shape, also a
shorter one) it makes that one call and returns its payload.  On the GPU it
hands over `mode`, the unadjusted `tol` and `s`; on the CPU it hands over `s`
and, in absolute mode, the unadjusted `tol`, in relative mode the product
`tol * norm` as computed in `T` (the exact product, rounded). -/
theorem compression_hands_tolerance (rnd : ℚ → Flt) (B : Backend) (D : Nat)
    (shape : List Nat) (dev : device) (tol s : Flt) (mode : error_bound_type) (norm : Flt)
    (original_data : List Flt) (config : Config)
    (hshape : shape.length = D ∨ (dev = device.GPU ∧ shape.length < D)) :
    compression rnd B D shape dev tol s mode norm original_data config =
      match dev, mode with
      | device.GPU, _ =>
        ⟨[Event.gpu_compress D shape mode tol s],
          Outcome.ret (B.gpu_compress D shape config original_data mode tol s)⟩
      | device.CPU, error_bound_type.ABS =>
        ⟨[Event.cpu_compress D shape s tol],
          Outcome.ret (B.cpu_compress D shape original_data s tol)⟩
      | device.CPU, error_bound_type.REL =>
        ⟨[Event.cpu_compress D shape s (Flt.mul rnd tol norm)],
          Outcome.ret (B.cpu_compress D shape original_data s (Flt.mul rnd tol norm))⟩ := by
  unfold compression
  rcases hshape with hlen | ⟨hdev, hlt⟩
  · cases dev <;> cases mode <;> simp [hlen]
  · subst hdev
    have hnl : ¬ D < shape.length := Nat.not_lt.mpr hlt.le
    simp [hnl]

/-- Witness for C3 (amended): on the CPU in relative mode with tolerance 1 and
norm 2, in exact arithmetic, the library is handed the product 1 * 2; on the
GPU it is handed the tolerance 1, also for a shape shorter than `D`. -/
theorem compression_hands_tolerance_witness :
    (([1] : List Nat).length = 1 ∨
      (device.CPU = device.GPU ∧ ([1] : List Nat).length < 1)) ∧
    compression Flt.fin demoBackend 1 [1] device.CPU (Flt.fin 1) (Flt.fin 0)
        error_bound_type.REL (Flt.fin 2) [Flt.fin 4] test_config =
      ⟨[Event.cpu_compress 1 [1] (Flt.fin 0) (Flt.mul Flt.fin (Flt.fin 1) (Flt.fin 2))],
        Outcome.ret (demoBackend.cpu_compress 1 [1] [Flt.fin 4] (Flt.fin 0)
          (Flt.mul Flt.fin (Flt.fin 1) (Flt.fin 2)))⟩ ∧
    compression Flt.fin demoBackend 2 [1] device.GPU (Flt.fin 1) (Flt.fin 0)
        error_bound_type.REL (Flt.fin 2) [Flt.fin 4] test_config =
      ⟨[Event.gpu_compress 2 [1] error_bound_type.REL (Flt.fin 1) (Flt.fin 0)],
        Outcome.ret (demoBackend.gpu_compress 2 [1] test_config [Flt.fin 4]
          error_bound_type.REL (Flt.fin 1) (Flt.fin 0))⟩ :=
  ⟨Or.inl rfl,
    compression_hands_tolerance Flt.fin demoBackend 1 [1] device.CPU (Flt.fin 1) (Flt.fin 0)
      error_bound_type.REL (Flt.fin 2) [Flt.fin 4] test_config (Or.inl rfl),
    compression_hands_tolerance Flt.fin demoBackend 2 [1] device.GPU (Flt.fin 1) (Flt.fin 0)
      error_bound_type.REL (Flt.fin 2) [Flt.fin 4] test_config (Or.inr ⟨rfl, by decide⟩)⟩

/-- Claim C4, failing inputs: for `D = 0` and for `D = 6` (synthetic data, single
precision) `test` raises no error: it loads the data, computes the norm, makes
no library call, and goes on to line 248, where it reads the uninitialised
`compressed_size`; the same happens when `main` is given six dimensions. -/
theorem test_unsupported_D_falls_through :
    test demoEnv demoBackend data_type.SINGLE 0 "random" data_type.SINGLE [] device.CPU
        (Flt.fin 1) (Flt.fin 0) error_bound_type.ABS =
      ⟨[Event.min_max (Flt.fin 4) (Flt.fin 4), Event.norm Metric.L2 (Flt.fin 2)],
        Outcome.undefined UB.uninitialisedRead⟩ ∧
    test demoEnv demoBackend data_type.SINGLE 6 "random" data_type.SINGLE [1, 1, 1, 1, 1, 1]
        device.CPU (Flt.fin 1) (Flt.fin 0) error_bound_type.ABS =
      ⟨[Event.min_max (Flt.fin 4) (Flt.fin 4), Event.norm Metric.L2 (Flt.fin 2)],
        Outcome.undefined UB.uninitialisedRead⟩ ∧
    main demoEnv demoBackend 32
        ["mgard", "random", "s", "6", "1", "1", "1", "1", "1", "1", "abs", "1", "0", "cpu"] =
      ⟨[Event.config "random" data_type.SINGLE [1, 1, 1, 1, 1, 1] device.CPU (Flt.fin 1)
          (Flt.fin 0) error_bound_type.ABS,
        Event.min_max (Flt.fin 4) (Flt.fin 4), Event.norm Metric.L2 (Flt.fin 2)],
        Outcome.undefined UB.uninitialisedRead⟩ := by
  refine ⟨?_, ?_, ?_⟩ <;> decide

/-- Counterexample to C5 as stated: a run whose input has 4 bytes and whose
payload has 5 bytes reports the compression ratio 0. -/
theorem reported_ratio_zero :
    (test demoEnv demoBackend data_type.SINGLE 1 "random" data_type.SINGLE [1] device.CPU
        (Flt.fin 1) (Flt.fin 0) error_bound_type.ABS).out = Outcome.ret (-1) ∧
    sizes_lines
      (test demoEnv demoBackend data_type.SINGLE 1 "random" data_type.SINGLE [1] device.CPU
        (Flt.fin 1) (Flt.fin 0) error_bound_type.ABS).log = [(4, 5, 0)] := by
  constructor <;> decide

/-- Claim C5, amended: a run of `test` that returns prints one size line; its
compression ratio is the integer quotient of the input size in bytes by the
(nonzero) payload size, which is 0 whenever the payload is larger than the
input. -/
theorem reported_ratio_is_quotient (E : Env) (B : Backend) (T : data_type) (D : Int)
    (input_file : String) (dtype : data_type) (shape : List Nat) (dev : device) (tol s : Flt)
    (mode : error_bound_type) (r : Int)
    (h : (test E B T D input_file dtype shape dev tol s mode).out = Outcome.ret r) :
    ∃ n data c,
      size_of_shape shape D = some n ∧
      (readfile E T input_file (n * sizeofT T % 2 ^ 64) false).out = Outcome.ret data ∧
      (compression (E.round T) B D.toNat shape dev (narrow E T tol) (narrow E T s) mode
        (norm_of B s n data) data test_config).out = Outcome.ret c ∧
      c.length ≠ 0 ∧
      sizes_lines (test E B T D input_file dtype shape dev tol s mode).log =
        [(n * sizeofT T % 2 ^ 64, c.length, n * sizeofT T % 2 ^ 64 / c.length)] ∧
      (n * sizeofT T % 2 ^ 64 < c.length → n * sizeofT T % 2 ^ 64 / c.length = 0) := by
  obtain ⟨n, data, c, d, hn, hdata, hdisp, hc, hd, hlen⟩ :=
    test_ret_dispatch _ _ _ _ _ _ _ _ _ _ _ _ h
  refine ⟨n, data, c, hn, hdata, hc, hlen, ?_, fun hlt => Nat.div_eq_of_lt hlt⟩
  rw [test_log E B T D input_file dtype shape dev tol s mode n data hn hdata, hdisp]
  have h1 := sizes_lines_readfile E T input_file (n * sizeofT T % 2 ^ 64) false
  have h2 := sizes_lines_dispatch (E.round T) B D shape dev (narrow E T tol) (narrow E T s)
    mode (norm_of B s n data) data test_config
  unfold sizes_lines at h1 h2 ⊢
  simp only [List.filterMap_append, List.filterMap_cons, h1, h2,
    test_tail_some _ _ _ _ _ _ _ _ _ _ hlen]
  split_ifs <;> simp [sizes_line?]

/-- Witness for C5 (amended): the run with 4 input bytes and a 5-byte payload. -/
theorem reported_ratio_is_quotient_witness :
    (test demoEnv demoBackend data_type.SINGLE 1 "random" data_type.SINGLE [1] device.CPU
        (Flt.fin 1) (Flt.fin 0) error_bound_type.ABS).out = Outcome.ret (-1) ∧
    ∃ n data c,
      size_of_shape [1] 1 = some n ∧
      (readfile demoEnv data_type.SINGLE "random" (n * sizeofT data_type.SINGLE % 2 ^ 64)
        false).out = Outcome.ret data ∧
      (compression (demoEnv.round data_type.SINGLE) demoBackend (1 : Int).toNat [1] device.CPU
        (narrow demoEnv data_type.SINGLE (Flt.fin 1))
        (narrow demoEnv data_type.SINGLE (Flt.fin 0))
        error_bound_type.ABS (norm_of demoBackend (Flt.fin 0) n data) data test_config).out
        = Outcome.ret c ∧
      c.length ≠ 0 ∧
      sizes_lines
        (test demoEnv demoBackend data_type.SINGLE 1 "random" data_type.SINGLE [1] device.CPU
          (Flt.fin 1) (Flt.fin 0) error_bound_type.ABS).log =
        [(n * sizeofT data_type.SINGLE % 2 ^ 64, c.length,
          n * sizeofT data_type.SINGLE % 2 ^ 64 / c.length)] ∧
      (n * sizeofT data_type.SINGLE % 2 ^ 64 < c.length →
        n * sizeofT data_type.SINGLE % 2 ^ 64 / c.length = 0) :=
  ⟨by decide, reported_ratio_is_quotient _ _ _ _ _ _ _ _ _ _ _ (-1) (by decide)⟩

/-- Counterexample to C6 as stated: with `check_size` set, a missing file
(`absent.dat`) and a file of 3 bytes where 4 are expected (`three.dat`) both
end the process with exit code 1. -/
theorem not_found_and_size_mismatch_same_code :
    readfile demoEnv data_type.SINGLE "absent.dat" 4 true =
      ⟨[Event.loading "absent.dat", Event.file_error], Outcome.exit 1⟩ ∧
    readfile demoEnv data_type.SINGLE "three.dat" 4 true =
      ⟨[Event.loading "three.dat", Event.size_mismatch "three.dat" 3 4], Outcome.exit 1⟩ := by
  constructor <;> decide

/-- Claim C6, amended: for a file name other than `random`, `readfile` ends the
process with exit code 1 when the file cannot be opened, with exit code 1 when
`check_size` is set and the file length differs from `num_bytes`, and with exit
code 3 when the size check passes or is off and fewer than `num_bytes` bytes
are read; otherwise it returns.  All codes are nonzero and only the short read
has a code of its own. -/
theorem readfile_exit_codes (E : Env) (T : data_type) (input_file : String) (num_bytes : Nat)
    (check_size : Bool) (hfile : input_file ≠ "random") :
    (E.fs input_file = none →
      readfile E T input_file num_bytes check_size =
        ⟨[Event.loading input_file, Event.file_error], Outcome.exit 1⟩) ∧
    (∀ bytes, E.fs input_file = some bytes → check_size = true → bytes.length ≠ num_bytes →
      readfile E T input_file num_bytes check_size =
        ⟨[Event.loading input_file, Event.size_mismatch input_file bytes.length num_bytes],
          Outcome.exit 1⟩) ∧
    (∀ bytes, E.fs input_file = some bytes → (check_size = false ∨ bytes.length = num_bytes) →
      bytes.length < num_bytes →
      readfile E T input_file num_bytes check_size =
        ⟨[Event.loading input_file, Event.reading_error], Outcome.exit 3⟩) ∧
    (∀ bytes, E.fs input_file = some bytes → (check_size = false ∨ bytes.length = num_bytes) →
      num_bytes ≤ bytes.length →
      (readfile E T input_file num_bytes check_size).out =
        Outcome.ret (E.decode T (bytes.take num_bytes))) := by
  refine ⟨?_, ?_, ?_, ?_⟩
  · intro h
    simp [readfile, hfile, h]
  · intro bytes h hc hne
    simp [readfile, hfile, h, hc, hne]
  · intro bytes h hc hlt
    have hne : bytes.length ≠ num_bytes := Nat.ne_of_lt hlt
    have hmin : ¬ num_bytes ≤ bytes.length := Nat.not_le.mpr hlt
    rcases hc with hc | hc
    · simp [readfile, hfile, h, hc, hmin]
    · exact absurd hc hne
  · intro bytes h hc hle
    rcases hc with hc | hc
    · simp [readfile, hfile, h, hc, hle]
    · simp [readfile, hfile, h, hc]

/-- Witness for C6 (amended): the three failures on concrete files. -/
theorem readfile_exit_codes_witness :
    ("absent.dat" ≠ "random" ∧ demoEnv.fs "absent.dat" = none ∧
      readfile demoEnv data_type.SINGLE "absent.dat" 4 true =
        ⟨[Event.loading "absent.dat", Event.file_error], Outcome.exit 1⟩) ∧
    ("three.dat" ≠ "random" ∧ demoEnv.fs "three.dat" = some [1, 2, 3] ∧
      readfile demoEnv data_type.SINGLE "three.dat" 4 true =
        ⟨[Event.loading "three.dat", Event.size_mismatch "three.dat" [1, 2, 3].length 4],
          Outcome.exit 1⟩) ∧
    (readfile demoEnv data_type.SINGLE "three.dat" 4 false =
        ⟨[Event.loading "three.dat", Event.reading_error], Outcome.exit 3⟩) ∧
    ((readfile demoEnv data_type.SINGLE "four.dat" 4 true).out =
        Outcome.ret (demoEnv.decode data_type.SINGLE ([1, 2, 3, 4].take 4))) :=
  ⟨⟨by decide, by decide,
      (readfile_exit_codes demoEnv data_type.SINGLE "absent.dat" 4 true (by decide)).1
        (by decide)⟩,
    ⟨by decide, by decide,
      (readfile_exit_codes demoEnv data_type.SINGLE "three.dat" 4 true (by decide)).2.1
        [1, 2, 3] (by decide) rfl (by decide)⟩,
    (readfile_exit_codes demoEnv data_type.SINGLE "three.dat" 4 false (by decide)).2.2.1
      [1, 2, 3] (by decide) (Or.inl rfl) (by decide),
    (readfile_exit_codes demoEnv data_type.SINGLE "four.dat" 4 true (by decide)).2.2.2
      [1, 2, 3, 4] (by decide) (Or.inr (by decide)) (by decide)⟩

/-- Claim C7: `main` prints the usage line and exits with code 0, nothing else
being printed or run, when it is called with the single argument `--help` or
`-h`, and when all positional arguments are supplied (`D` extents after the
dimension count `D`, `D` representable in `mgard_cuda::DIM`) but the precision
is neither `s` nor `d`, or the mode is neither `rel` nor `abs`, or the device
is neither `cpu` nor `gpu`. -/
theorem main_usage_exit_zero (E : Env) (B : Backend) (dimBits : Nat)
    (prog input dt nd em t sa dv : String) (dims : List String)
    (hD : E.atoi nd = (dims.length : Int)) (hbits : dims.length < 2 ^ dimBits)
    (hbad : (dt ≠ "s" ∧ dt ≠ "d") ∨ (em ≠ "rel" ∧ em ≠ "abs") ∨ (dv ≠ "cpu" ∧ dv ≠ "gpu")) :
    main E B dimBits [prog, "--help"] = ⟨[Event.usage prog], Outcome.exit 0⟩ ∧
    main E B dimBits [prog, "-h"] = ⟨[Event.usage prog], Outcome.exit 0⟩ ∧
    main E B dimBits (prog :: input :: dt :: nd :: (dims ++ [em, t, sa, dv])) =
      ⟨[Event.usage prog], Outcome.exit 0⟩ := by
  refine ⟨by simp [main, print_usage_message], by simp [main, print_usage_message], ?_⟩
  have hparse := parse_shape_append dimBits E.atoi dims.length hbits [em, t, sa, dv] dims 0 []
    (by simp)
  have hlen : ¬ ((prog :: input :: dt :: nd :: (dims ++ [em, t, sa, dv])).length = 2 ∧
      ((prog :: input :: dt :: nd :: (dims ++ [em, t, sa, dv])).get? 1 = some "--help" ∨
       (prog :: input :: dt :: nd :: (dims ++ [em, t, sa, dv])).get? 1 = some "-h")) := by
    simp
  unfold main
  rw [if_neg hlen]
  simp only [List.drop_succ_cons, List.drop_zero]
  by_cases hs : dt = "s" <;> by_cases hd : dt = "d" <;> by_cases hrel : em = "rel" <;>
    by_cases habs : em = "abs" <;> by_cases hcpu : dv = "cpu" <;> by_cases hgpu : dv = "gpu" <;>
    simp_all [print_usage_message]

/-- Witness for C7: all positional arguments for one dimension, with the
unknown device `tpu`. -/
theorem main_usage_exit_zero_witness :
    demoEnv.atoi "1" = ((["1"] : List String).length : Int) ∧
    (["1"] : List String).length < 2 ^ 32 ∧
    ("tpu" ≠ "cpu" ∧ "tpu" ≠ "gpu") ∧
    main demoEnv demoBackend 32 ["mgard", "--help"] =
      ⟨[Event.usage "mgard"], Outcome.exit 0⟩ ∧
    main demoEnv demoBackend 32 ["mgard", "-h"] = ⟨[Event.usage "mgard"], Outcome.exit 0⟩ ∧
    main demoEnv demoBackend 32
        ("mgard" :: "random" :: "s" :: "1" :: (["1"] ++ ["abs", "1", "0", "tpu"])) =
      ⟨[Event.usage "mgard"], Outcome.exit 0⟩ :=
  ⟨by decide, by decide, by decide,
    main_usage_exit_zero demoEnv demoBackend 32 "mgard" "random" "s" "1" "abs" "1" "0" "tpu"
      ["1"] (by decide) (by decide) (Or.inr (Or.inr (by decide)))⟩

/-- Claim C8, failing input: for 8590065664 requested bytes of `float` (the
shape 65537 x 32768) the loop of the synthetic branch must run 2147516416
times, more than its `int` counter can count: `readfile`, and `test` with it,
run into the signed overflow of `i++` at `INT_MAX` instead of returning a
buffer of 2147516416 elements. -/
theorem readfile_random_counter_overflow (E : Env) (B : Backend) (dev : device) (tol s : Flt)
    (mode : error_bound_type) (check_size : Bool) :
    readfile E data_type.SINGLE "random" 8590065664 check_size =
      ⟨[], Outcome.undefined UB.signedOverflow⟩ ∧
    test E B data_type.SINGLE 2 "random" data_type.SINGLE [65537, 32768] dev tol s mode =
      ⟨[], Outcome.undefined UB.signedOverflow⟩ :=
  ⟨readfile_random_overflow E data_type.SINGLE 8590065664 check_size (by decide),
   test_random_overflow E B data_type.SINGLE 2 data_type.SINGLE [65537, 32768] dev tol s mode
     2147516416 (by decide) (by decide)⟩

/-- Claim C9: in a run of `test` that has loaded its data, the norm is computed
once, with the L-infinity metric (`mgard_cuda::L_inf_norm`) if `s` is `+infinity`
and with the L2 metric (`mgard_cuda::L_2_norm`) otherwise; every error line of
the run carries the metric of the norm, and a run that returns prints exactly
one, computed with `mgard_cuda::L_inf_error` if `s` is `+infinity` and with
`mgard_cuda::L_2_error` otherwise (in relative mode divided by the norm in `T`). -/
theorem metric_follows_s (E : Env) (B : Backend) (T : data_type) (D : Int)
    (input_file : String) (dtype : data_type) (shape : List Nat) (dev : device) (tol s : Flt)
    (mode : error_bound_type) (n : Nat) (data : List Flt)
    (hn : size_of_shape shape D = some n)
    (hdata : (readfile E T input_file (n * sizeofT T % 2 ^ 64) false).out = Outcome.ret data) :
    norm_calls (test E B T D input_file dtype shape dev tol s mode).log =
      [if s = Flt.pinf then (Metric.Linf, B.L_inf_norm n data)
       else (Metric.L2, B.L_2_norm n data)] ∧
    (∀ p ∈ error_lines (test E B T D input_file dtype shape dev tol s mode).log,
      ∀ q ∈ norm_calls (test E B T D input_file dtype shape dev tol s mode).log, p.1 = q.1) ∧
    (∀ r, (test E B T D input_file dtype shape dev tol s mode).out = Outcome.ret r →
      ∃ c d,
        (compression (E.round T) B D.toNat shape dev (narrow E T tol) (narrow E T s) mode
          (if s = Flt.pinf then B.L_inf_norm n data else B.L_2_norm n data) data
          test_config).out = Outcome.ret c ∧
        (decompression (E.round T) B D.toNat shape dev (narrow E T tol) (narrow E T s) mode
          (if s = Flt.pinf then B.L_inf_norm n data else B.L_2_norm n data) c
          test_config).out = Outcome.ret d ∧
        error_lines (test E B T D input_file dtype shape dev tol s mode).log =
          [if s = Flt.pinf then
             (Metric.Linf,
               measured_error (E.round T) mode (B.L_inf_error n data d) (B.L_inf_norm n data))
           else
             (Metric.L2,
               measured_error (E.round T) mode (B.L_2_error n data d) (B.L_2_norm n data))]) := by
  have hlog := test_log E B T D input_file dtype shape dev tol s mode n data hn hdata
  have hnorm : norm_calls (test E B T D input_file dtype shape dev tol s mode).log =
      [(metric_of s, norm_of B s n data)] := by
    rw [hlog]
    have h1 := norm_calls_readfile E T input_file (n * sizeofT T % 2 ^ 64) false
    have h2 := norm_calls_dispatch (E.round T) B D shape dev (narrow E T tol) (narrow E T s)
      mode (norm_of B s n data) data test_config
    have h3 := norm_calls_test_tail (E.round T) B T tol s mode n data
    unfold norm_calls at h1 h2 h3 ⊢
    simp only [List.filterMap_append, List.filterMap_cons, h1, h2, norm_call?]
    cases (test_dispatch (E.round T) B D shape dev (narrow E T tol) (narrow E T s) mode
        (norm_of B s n data) data test_config).out with
    | ret vars => simp [h3 vars]
    | exit c => simp
    | undefined u => simp
  have hpinf : ∀ {α : Type} (a b : α), (if Flt.feq s Flt.pinf then a else b) =
      (if s = Flt.pinf then a else b) := by
    intro α a b
    by_cases h : s = Flt.pinf
    · simp [h, Flt.feq]
    · have : Flt.feq s Flt.pinf = false := by
        cases hf : Flt.feq s Flt.pinf
        · rfl
        · exact absurd ((Flt.feq_pinf_iff s).mp hf) h
      simp [h, this]
  refine ⟨?_, ?_, ?_⟩
  · rw [hnorm]
    unfold metric_of norm_of
    rw [hpinf, hpinf]
    split_ifs <;> rfl
  · intro p hp q hq
    rw [hnorm] at hq
    simp only [List.mem_singleton] at hq
    subst hq
    rw [hlog] at hp
    have h1 := error_lines_readfile E T input_file (n * sizeofT T % 2 ^ 64) false
    have h2 := error_lines_dispatch (E.round T) B D shape dev (narrow E T tol)
      (narrow E T s) mode (norm_of B s n data) data test_config
    unfold error_lines at h1 h2 hp
    simp only [List.filterMap_append, List.filterMap_cons, h1, h2, error_line?,
      List.nil_append] at hp
    cases hv : (test_dispatch (E.round T) B D shape dev (narrow E T tol) (narrow E T s) mode
        (norm_of B s n data) data test_config).out with
    | ret vars =>
      rw [hv] at hp
      exact error_lines_test_tail (E.round T) B T tol s mode n data vars p hp
    | exit c => rw [hv] at hp; simp at hp
    | undefined u => rw [hv] at hp; simp at hp
  · intro r hr
    obtain ⟨n2, data2, c, d, hn2, hdata2, hdisp, hc, hd, hlen⟩ :=
      test_ret_dispatch _ _ _ _ _ _ _ _ _ _ _ _ hr
    rw [hn] at hn2
    cases hn2
    rw [hdata] at hdata2
    cases hdata2
    have hnd : norm_of B s n data =
        (if s = Flt.pinf then B.L_inf_norm n data else B.L_2_norm n data) := by
      unfold norm_of
      exact hpinf _ _
    refine ⟨c, d, by rw [← hnd]; exact hc, by rw [← hnd]; exact hd, ?_⟩
    rw [hlog, hdisp]
    have h1 := error_lines_readfile E T input_file (n * sizeofT T % 2 ^ 64) false
    have h2 := error_lines_dispatch (E.round T) B D shape dev (narrow E T tol)
      (narrow E T s) mode (norm_of B s n data) data test_config
    unfold error_lines at h1 h2 ⊢
    simp only [List.filterMap_append, List.filterMap_cons, h1, h2,
      test_tail_some _ _ _ _ _ _ _ _ _ _ hlen, error_line?, List.nil_append]
    unfold metric_of raw_error norm_of
    rw [hpinf, hpinf, hpinf]
    by_cases hs : s = Flt.pinf
    · simp only [hs, if_true]
      split_ifs <;> simp
    · simp only [hs, if_false]
      split_ifs <;> simp

/-- Witness for C9: a run with `s = +infinity` computes the norm and the error
with the L-infinity metric. -/
theorem metric_follows_s_witness :
    size_of_shape [1] 1 = some 1 ∧
    (readfile demoEnv data_type.SINGLE "random" (1 * sizeofT data_type.SINGLE % 2 ^ 64) false).out
      = Outcome.ret [Flt.fin 4] ∧
    (test demoEnv demoBackend data_type.SINGLE 1 "random" data_type.SINGLE [1] device.CPU
        (Flt.fin 1) Flt.pinf error_bound_type.ABS).out = Outcome.ret (-1) ∧
    norm_calls
        (test demoEnv demoBackend data_type.SINGLE 1 "random" data_type.SINGLE [1] device.CPU
          (Flt.fin 1) Flt.pinf error_bound_type.ABS).log =
      [(Metric.Linf, demoBackend.L_inf_norm 1 [Flt.fin 4])] ∧
    error_lines
        (test demoEnv demoBackend data_type.SINGLE 1 "random" data_type.SINGLE [1] device.CPU
          (Flt.fin 1) Flt.pinf error_bound_type.ABS).log =
      [(Metric.Linf, Flt.fin 1)] :=
  have h := metric_follows_s demoEnv demoBackend data_type.SINGLE 1 "random" data_type.SINGLE
    [1] device.CPU (Flt.fin 1) Flt.pinf error_bound_type.ABS 1 [Flt.fin 4] (by decide)
    (by decide)
  ⟨by decide, by decide, by decide, by simpa using h.1, by
    obtain ⟨c, d, _, _, he⟩ := h.2.2 (-1) (by decide)
    simpa [measured_error, demoBackend] using he⟩

/-- Claim C10, failing input: for the buffer `[-3, -1]`, whose elements are all
negative, `min_max` prints the minimum -3 but the maximum 0, which is not an
element of the buffer (`max` starts at 0); `readfile` does so on a file whose
single element is -127. -/
theorem min_max_all_negative :
    min_max 2 [Flt.fin (-3), Flt.fin (-1)] = (Flt.fin (-3), Flt.fin 0) ∧
    Flt.fin 0 ∉ [Flt.fin (-3), Flt.fin (-1)] ∧
    readfile demoEnv data_type.SINGLE "four.dat" 4 false =
      ⟨[Event.loading "four.dat", Event.min_max (Flt.fin (-127)) (Flt.fin 0)],
        Outcome.ret [Flt.fin (-127)]⟩ := by
  refine ⟨?_, ?_, ?_⟩ <;> decide

end MGARD
